import Mathlib

/-!
Verification development for the resource-cache subsystem of a Vulkan samples
framework: the deduplicating resource cache (`ResourceCache`), its record/replay
machinery (`ResourceRecord`, resource replay), and the descriptor
layout/pool/set triad (`DescriptorSetLayout`, `DescriptorPool`, `DescriptorSet`).

The C++ classes are embedded shallowly: `std::unordered_map` / `std::map`
become association lists, machine integers become `Nat`, driver calls
(`vkCreateDescriptorPool`, `vkAllocateDescriptorSets`, `vkUpdateDescriptorSets`, ...)
are modelled as always succeeding, with the number of issued device calls
tracked explicitly where a claim speaks about them.
-/

namespace VkSamples

/-- Association-list lookup; models `find` on `std::unordered_map` / `std::map`
(keys are unique in the C++ maps, so first-occurrence lookup is faithful). -/
def findVal {κ α : Type} [DecidableEq κ] : List (κ × α) → κ → Option α
  | [], _ => none
  | (k, v) :: rest, key => if k = key then some v else findVal rest key

/-- Association-list single-entry erase; models `std::unordered_map::erase`. -/
def eraseKey {κ α : Type} [DecidableEq κ] : List (κ × α) → κ → List (κ × α)
  | [], _ => []
  | (k, v) :: rest, key => if k = key then rest else (k, v) :: eraseKey rest key

/-- Association-list `emplace`: inserts only when the key is absent,
exactly like `std::unordered_map::emplace` / `std::map::emplace`. -/
def emplaceA {κ α : Type} [DecidableEq κ] (m : List (κ × α)) (k : κ) (v : α) : List (κ × α) :=
  match findVal m k with
  | some _ => m
  | none => m ++ [(k, v)]

/-- Association-list `operator[]` assignment: overwrite in place if present,
append otherwise; models `map[key] = value`. -/
def setAssoc {κ α : Type} [DecidableEq κ] : List (κ × α) → κ → α → List (κ × α)
  | [], k, v => [(k, v)]
  | (k', v') :: rest, k, v =>
      if k' = k then (k', v) :: rest else (k', v') :: setAssoc rest k v

theorem findVal_setAssoc {κ α : Type} [DecidableEq κ] (m : List (κ × α)) (k k' : κ) (v : α) :
    findVal (setAssoc m k v) k' = if k = k' then some v else findVal m k' := by
  induction m with
  | nil =>
      by_cases h : k = k' <;> simp [setAssoc, findVal, h]
  | cons p rest ih =>
      obtain ⟨pk, pv⟩ := p
      by_cases h1 : pk = k
      · subst h1
        by_cases h2 : pk = k' <;> simp [setAssoc, findVal, h2]
      · by_cases h2 : pk = k'
        · subst h2
          have : ¬ k = pk := fun h => h1 h.symm
          simp [setAssoc, findVal, h1, this]
        · simp [setAssoc, findVal, h1, h2, ih]

theorem findVal_append {κ α : Type} [DecidableEq κ] (m₁ m₂ : List (κ × α)) (k : κ) :
    findVal (m₁ ++ m₂) k = ((findVal m₁ k).or (findVal m₂ k)) := by
  induction m₁ with
  | nil => simp [findVal]
  | cons p rest ih =>
      obtain ⟨pk, pv⟩ := p
      by_cases h : pk = k <;> simp [findVal, h, ih]

instance {ε α : Type} [DecidableEq ε] [DecidableEq α] : DecidableEq (Except ε α)
  | .error e1, .error e2 =>
      if h : e1 = e2 then isTrue (by rw [h]) else
        isFalse (by intro hc; cases hc; exact h rfl)
  | .error _, .ok _ => isFalse (by intro hc; cases hc)
  | .ok _, .error _ => isFalse (by intro hc; cases hc)
  | .ok a1, .ok a2 =>
      if h : a1 = a2 then isTrue (by rw [h]) else
        isFalse (by intro hc; cases hc; exact h rfl)

/-- Element-wise fallible map; models resolving a list of objects through a
table where each single lookup is `std::unordered_map::at` (throwing — `none`
— when any element is absent). -/
def mapOption {α β : Type} (f : α → Option β) : List α → Option (List β)
  | [] => some []
  | a :: rest =>
      match f a, mapOption f rest with
      | some b, some bs => some (b :: bs)
      | _, _ => none

/-- Cantor-style injective encoding of a list of naturals; building block for
the content-hash models (`hash_param` lives outside the excerpted sources, so
the hash is modelled from the spec as a deterministic, order-sensitive,
collision-free digest). -/
def encList : List Nat → Nat
  | [] => 0
  | a :: rest => Nat.pair a (encList rest) + 1

/-! ## ResourceCacheState and the Clear family (ResourceCache.h / ResourceCache.cpp)

The nine per-kind maps of `ResourceCacheState`. Values are abstracted to an
opaque object identity (`Nat`); the claims about these maps only concern which
`(key, object)` pairs are present. -/

structure ResourceCacheState where
  shader_modules : List (Nat × Nat)
  pipeline_layouts : List (Nat × Nat)
  descriptor_set_layouts : List (Nat × Nat)
  descriptor_pools : List (Nat × Nat)
  render_passes : List (Nat × Nat)
  graphics_pipelines : List (Nat × Nat)
  compute_pipelines : List (Nat × Nat)
  descriptor_sets : List (Nat × Nat)
  framebuffers : List (Nat × Nat)
deriving DecidableEq

def emptyCacheState : ResourceCacheState := ⟨[], [], [], [], [], [], [], [], []⟩

/-- `ResourceCache::ClearPipelines` (ResourceCache.cpp lines 118-122). -/
def ClearPipelines (s : ResourceCacheState) : ResourceCacheState :=
  { s with graphics_pipelines := [], compute_pipelines := [] }

/-- `ResourceCache::ClearFramebuffers` (ResourceCache.cpp lines 201-204). -/
def ClearFramebuffers (s : ResourceCacheState) : ResourceCacheState :=
  { s with framebuffers := [] }

/-- `ResourceCache::Clear` (ResourceCache.cpp lines 207-216): clears the
shader-module, pipeline-layout, descriptor-set, descriptor-set-layout and
render-pass maps, then delegates to `ClearPipelines` and `ClearFramebuffers`.
The descriptor-pool map is never cleared. -/
def Clear (s : ResourceCacheState) : ResourceCacheState :=
  ClearFramebuffers (ClearPipelines
    { s with shader_modules := [], pipeline_layouts := [], descriptor_sets := [],
             descriptor_set_layouts := [], render_passes := [] })

/-! ## Per-kind mutex assignment (ResourceCache.h lines 138-152, ResourceCache.cpp lines 68-115) -/

/-- The nine resource kinds managed by the cache. -/
inductive ResourceKind
  | shaderModule
  | pipelineLayout
  | descriptorSetLayout
  | descriptorPool
  | descriptorSet
  | renderPass
  | graphicsPipeline
  | computePipeline
  | framebuffer
deriving DecidableEq

/-- The eight mutex members declared in `ResourceCache` (ResourceCache.h
lines 138-152). There is no dedicated descriptor-pool mutex. -/
inductive CacheMutex
  | descriptorSetMutex
  | pipelineLayoutMutex
  | shaderModuleMutex
  | descriptorSetLayoutMutex
  | graphicsPipelineMutex
  | renderPassMutex
  | computePipelineMutex
  | framebufferMutex
deriving DecidableEq

/-- Which mutex each per-kind request operation passes to `RequestResource`
(ResourceCache.cpp lines 68-115). `RequestDescriptorSet` (lines 99-103) uses
`m_descriptorSetMutex` for both its descriptor-pool lookup and its
descriptor-set lookup. -/
def requestMutex : ResourceKind → CacheMutex
  | .shaderModule => .shaderModuleMutex
  | .pipelineLayout => .pipelineLayoutMutex
  | .descriptorSetLayout => .descriptorSetLayoutMutex
  | .descriptorPool => .descriptorSetMutex
  | .descriptorSet => .descriptorSetMutex
  | .renderPass => .renderPassMutex
  | .graphicsPipeline => .graphicsPipelineMutex
  | .computePipeline => .computePipelineMutex
  | .framebuffer => .framebufferMutex

/-! ## DescriptorPool (core/DescriptorPool.cpp) -/

/-- Result codes returned by `DescriptorPool::FreeDescriptorSet`. -/
inductive VkResult
  | VK_SUCCESS
  | VK_INCOMPLETE
deriving DecidableEq

/-- State of a `DescriptorPool` (core/DescriptorPool.cpp).  The driver sub-pool
handle vector `m_pools` is abstracted to its length; `vkAllocateDescriptorSets`
is modelled as succeeding with a fresh handle drawn from `nextHandle`. -/
structure DescriptorPoolState where
  poolMaxSets : Nat
  pools : Nat
  poolSetsCount : List Nat
  poolIndex : Nat
  setPoolMapping : List (Nat × Nat)
  nextHandle : Nat
deriving DecidableEq

/-- The `DescriptorPool` constructor (DescriptorPool.cpp lines 25-55) creates
no sub-pool; it only records the per-sub-pool capacity `poolSize`. -/
def mkDescriptorPool (poolSize : Nat) : DescriptorPoolState :=
  { poolMaxSets := poolSize, pools := 0, poolSetsCount := [], poolIndex := 0,
    setPoolMapping := [], nextHandle := 0 }

/-- Recursion core of `DescriptorPool::FindAvailablePool`.  The `fuel`
argument is always `st.pools - searchIndex`, the number of existing sub-pools
left to probe: fuel `0` means `searchIndex` is past the end (`m_pools.size() <=
searchIndex`), where the C++ creates a new sub-pool; otherwise the probed
sub-pool is returned when it has spare capacity and the search advances
one index (consuming one unit of fuel) when it is full. -/
def FindAvailablePoolAux (st : DescriptorPoolState) : Nat → Nat → DescriptorPoolState × Nat
  | 0, searchIndex =>
      ({ st with pools := st.pools + 1, poolSetsCount := st.poolSetsCount ++ [0] },
       searchIndex)
  | fuel + 1, searchIndex =>
      if st.poolSetsCount.getD searchIndex 0 < st.poolMaxSets then
        (st, searchIndex)
      else
        FindAvailablePoolAux st fuel (searchIndex + 1)

/-- `DescriptorPool::FindAvailablePool` (DescriptorPool.cpp lines 158-207):
creates a new sub-pool when `searchIndex` is past the end (driver creation
modelled as succeeding), returns `searchIndex` when that sub-pool has spare
capacity, and otherwise retries at `searchIndex + 1`. -/
def FindAvailablePool (st : DescriptorPoolState) (searchIndex : Nat) :
    DescriptorPoolState × Nat :=
  FindAvailablePoolAux st (st.pools - searchIndex) searchIndex

/-- `DescriptorPool::AllocateDescriptorSet` (DescriptorPool.cpp lines 96-127):
probe from the cursor, increment the chosen sub-pool's live count, allocate a
handle (driver allocation modelled as succeeding), record the
handle-to-sub-pool mapping, and return the handle. -/
def AllocateDescriptorSet (st : DescriptorPoolState) : DescriptorPoolState × Nat :=
  let p := FindAvailablePool st st.poolIndex
  let st1 := p.1
  let idx := p.2
  let st2 := { st1 with
    poolIndex := idx,
    poolSetsCount := st1.poolSetsCount.set idx (st1.poolSetsCount.getD idx 0 + 1) }
  let handle := st2.nextHandle
  ({ st2 with
      nextHandle := handle + 1,
      setPoolMapping := st2.setPoolMapping ++ [(handle, idx)] }, handle)

/-- `DescriptorPool::FreeDescriptorSet` (DescriptorPool.cpp lines 130-155).
The third component counts the `vkFreeDescriptorSets` driver calls issued. -/
def FreeDescriptorSet (st : DescriptorPoolState) (descriptorSet : Nat) :
    VkResult × DescriptorPoolState × Nat :=
  match findVal st.setPoolMapping descriptorSet with
  | none => (VkResult.VK_INCOMPLETE, st, 0)
  | some descPoolIndex =>
      (VkResult.VK_SUCCESS,
       { st with
          setPoolMapping := eraseKey st.setPoolMapping descriptorSet,
          poolSetsCount :=
            st.poolSetsCount.set descPoolIndex (st.poolSetsCount.getD descPoolIndex 0 - 1),
          poolIndex := descPoolIndex }, 1)

/-- Iterated allocation (used to state the growth property of claim C6). -/
def allocIter (st : DescriptorPoolState) : Nat → DescriptorPoolState
  | 0 => st
  | n + 1 => allocIter (AllocateDescriptorSet st).1 n

theorem allocIter_succ_right (st : DescriptorPoolState) (n : Nat) :
    allocIter st (n + 1) = (AllocateDescriptorSet (allocIter st n)).1 := by
  induction n generalizing st with
  | zero => rfl
  | succ m ih => rw [allocIter, ih, allocIter]

theorem getD_set_self (l : List Nat) (i v : Nat) (h : i < l.length) :
    (l.set i v).getD i 0 = v := by
  induction l generalizing i with
  | nil => simp at h
  | cons a t ih =>
      cases i with
      | zero => simp
      | succ n =>
          simp only [List.set, List.getD_cons_succ]
          exact ih n (by simpa using h)

theorem findAvailablePool_hit (st : DescriptorPoolState) (i : Nat)
    (h1 : i < st.pools) (h2 : st.poolSetsCount.getD i 0 < st.poolMaxSets) :
    FindAvailablePool st i = (st, i) := by
  obtain ⟨f, hf⟩ : ∃ f, st.pools - i = f + 1 := ⟨st.pools - i - 1, by omega⟩
  rw [FindAvailablePool, hf, FindAvailablePoolAux, if_pos h2]

theorem allocate_at_hit (st : DescriptorPoolState)
    (h1 : st.poolIndex < st.pools)
    (h2 : st.poolSetsCount.getD st.poolIndex 0 < st.poolMaxSets) :
    (AllocateDescriptorSet st).1.pools = st.pools ∧
    (AllocateDescriptorSet st).1.poolIndex = st.poolIndex := by
  have hfap := findAvailablePool_hit st st.poolIndex h1 h2
  rw [AllocateDescriptorSet, hfap]
  exact ⟨rfl, rfl⟩

theorem allocIter_fresh (c : Nat) : ∀ k, 1 ≤ k → k ≤ c →
    allocIter (mkDescriptorPool c) k =
      { poolMaxSets := c, pools := 1, poolSetsCount := [k], poolIndex := 0,
        setPoolMapping := (List.range k).map (fun i => (i, 0)), nextHandle := k } := by
  intro k
  induction k with
  | zero => intro h; omega
  | succ m ih =>
      intro _ hle
      rcases Nat.eq_zero_or_pos m with hm | hm
      · subst hm
        rw [allocIter_succ_right]
        simp [allocIter, AllocateDescriptorSet, mkDescriptorPool, FindAvailablePool,
          FindAvailablePoolAux, List.range_succ]
      · rw [allocIter_succ_right, ih hm (by omega)]
        have hmc : m < c := by omega
        simp [AllocateDescriptorSet, FindAvailablePool, FindAvailablePoolAux, hmc,
          List.range_succ]

theorem allocIter_overflow (c : Nat) (hc : 1 ≤ c) :
    allocIter (mkDescriptorPool c) (c + 1) =
      { poolMaxSets := c, pools := 2, poolSetsCount := [c, 1], poolIndex := 1,
        setPoolMapping := (List.range c).map (fun i => (i, 0)) ++ [(c, 1)],
        nextHandle := c + 1 } := by
  rw [allocIter_succ_right, allocIter_fresh c c hc (le_refl c)]
  rw [AllocateDescriptorSet, FindAvailablePool]
  simp [FindAvailablePoolAux, List.range_succ]

/-! ## Claim theorems: C9, C8, C10, C6 -/

/-- Claim C9: `ResourceCache::Clear` empties the shader-module, pipeline-layout,
descriptor-set, descriptor-set-layout, render-pass, graphics-pipeline,
compute-pipeline and framebuffer maps, and leaves the descriptor-pool map
exactly as it was, so every descriptor pool cached before the clear is still
present under the same key afterwards. -/
theorem claim_C9_clear_spares_descriptor_pools (s : ResourceCacheState) :
    (Clear s).descriptor_pools = s.descriptor_pools ∧
    (Clear s).shader_modules = [] ∧
    (Clear s).pipeline_layouts = [] ∧
    (Clear s).descriptor_sets = [] ∧
    (Clear s).descriptor_set_layouts = [] ∧
    (Clear s).render_passes = [] ∧
    (Clear s).graphics_pipelines = [] ∧
    (Clear s).compute_pipelines = [] ∧
    (Clear s).framebuffers = [] := by
  refine ⟨rfl, rfl, rfl, rfl, rfl, rfl, rfl, rfl, rfl⟩

/-- Claim C8 counterexample: descriptor-pool requests and descriptor-set
requests are guarded by the same mutex (`m_descriptorSetMutex`), not by
distinct per-kind locks, so the per-kind lock assignment is not injective. -/
theorem claim_C8_counterexample :
    requestMutex ResourceKind.descriptorPool = requestMutex ResourceKind.descriptorSet ∧
    ResourceKind.descriptorPool ≠ ResourceKind.descriptorSet :=
  ⟨rfl, by decide⟩

/-- Claim C8 (amended): the cache declares eight mutexes, one per resource kind
except that descriptor-pool and descriptor-set requests share
`m_descriptorSetMutex`; any two kinds mapped to the same mutex are either equal
or are the descriptor-pool/descriptor-set pair. -/
theorem claim_C8_eight_mutexes (k k' : ResourceKind)
    (h : requestMutex k = requestMutex k') :
    k = k' ∨
      ((k = ResourceKind.descriptorPool ∨ k = ResourceKind.descriptorSet) ∧
       (k' = ResourceKind.descriptorPool ∨ k' = ResourceKind.descriptorSet)) := by
  revert h
  cases k <;> cases k' <;> decide

theorem claim_C8_witness :
    ResourceKind.descriptorPool = ResourceKind.descriptorSet ∨
      ((ResourceKind.descriptorPool = ResourceKind.descriptorPool ∨
        ResourceKind.descriptorPool = ResourceKind.descriptorSet) ∧
       (ResourceKind.descriptorSet = ResourceKind.descriptorPool ∨
        ResourceKind.descriptorSet = ResourceKind.descriptorSet)) :=
  claim_C8_eight_mutexes ResourceKind.descriptorPool ResourceKind.descriptorSet rfl

/-- Claim C10: freeing a handle that is absent from the handle-to-sub-pool
mapping returns `VK_INCOMPLETE`, issues no driver free, and leaves the pool
state (live counts, mapping, cursor, sub-pools) completely unchanged. -/
theorem claim_C10_free_unknown_handle (st : DescriptorPoolState) (h : Nat)
    (hnone : findVal st.setPoolMapping h = none) :
    FreeDescriptorSet st h = (VkResult.VK_INCOMPLETE, st, 0) := by
  simp [FreeDescriptorSet, hnone]

theorem claim_C10_witness :
    findVal (mkDescriptorPool 16).setPoolMapping 5 = none ∧
    FreeDescriptorSet (mkDescriptorPool 16) 5 = (VkResult.VK_INCOMPLETE, mkDescriptorPool 16, 0) :=
  ⟨rfl, claim_C10_free_unknown_handle (mkDescriptorPool 16) 5 rfl⟩

/-- Claim C6: allocating `capacity + 1` sets from a fresh pool with per-sub-pool
capacity `capacity` first fills a single sub-pool and then creates a second
one; `FreeDescriptorSet` on a known handle decrements the owning sub-pool's
live count, removes the handle mapping and resets the cursor to that
sub-pool's index; and the allocation following such a free reuses that
sub-pool without creating any further sub-pool. -/
theorem claim_C6_pool_growth_and_reuse (c : Nat) (hc : 1 ≤ c)
    (st : DescriptorPoolState) (h idx : Nat)
    (hfound : findVal st.setPoolMapping h = some idx)
    (hidx : idx < st.pools)
    (hlen : st.poolSetsCount.length = st.pools)
    (hcnt : st.poolSetsCount.getD idx 0 ≤ st.poolMaxSets)
    (hmax : 1 ≤ st.poolMaxSets) :
    (allocIter (mkDescriptorPool c) c).pools = 1 ∧
    (allocIter (mkDescriptorPool c) (c + 1)).pools = 2 ∧
    FreeDescriptorSet st h =
      (VkResult.VK_SUCCESS,
       { st with setPoolMapping := eraseKey st.setPoolMapping h,
                 poolSetsCount :=
                   st.poolSetsCount.set idx (st.poolSetsCount.getD idx 0 - 1),
                 poolIndex := idx }, 1) ∧
    (AllocateDescriptorSet (FreeDescriptorSet st h).2.1).1.pools = st.pools ∧
    (AllocateDescriptorSet (FreeDescriptorSet st h).2.1).1.poolIndex = idx := by
  refine ⟨?_, ?_, ?_, ?_, ?_⟩
  · rw [allocIter_fresh c c hc (le_refl c)]
  · rw [allocIter_overflow c hc]
  · simp [FreeDescriptorSet, hfound]
  · have hstep : (FreeDescriptorSet st h).2.1 =
        { st with setPoolMapping := eraseKey st.setPoolMapping h,
                  poolSetsCount :=
                    st.poolSetsCount.set idx (st.poolSetsCount.getD idx 0 - 1),
                  poolIndex := idx } := by
      simp [FreeDescriptorSet, hfound]
    rw [hstep]
    have hget : ((st.poolSetsCount.set idx (st.poolSetsCount.getD idx 0 - 1)).getD idx 0) =
        st.poolSetsCount.getD idx 0 - 1 :=
      getD_set_self _ _ _ (by omega)
    have hlt : st.poolSetsCount.getD idx 0 - 1 < st.poolMaxSets := by omega
    exact (allocate_at_hit _ hidx (by rw [hget]; exact hlt)).1
  · have hstep : (FreeDescriptorSet st h).2.1 =
        { st with setPoolMapping := eraseKey st.setPoolMapping h,
                  poolSetsCount :=
                    st.poolSetsCount.set idx (st.poolSetsCount.getD idx 0 - 1),
                  poolIndex := idx } := by
      simp [FreeDescriptorSet, hfound]
    rw [hstep]
    have hget : ((st.poolSetsCount.set idx (st.poolSetsCount.getD idx 0 - 1)).getD idx 0) =
        st.poolSetsCount.getD idx 0 - 1 :=
      getD_set_self _ _ _ (by omega)
    have hlt : st.poolSetsCount.getD idx 0 - 1 < st.poolMaxSets := by omega
    exact (allocate_at_hit _ hidx (by rw [hget]; exact hlt)).2

theorem claim_C6_witness :
    (allocIter (mkDescriptorPool 2) 2).pools = 1 ∧
    (allocIter (mkDescriptorPool 2) 3).pools = 2 ∧
    FreeDescriptorSet
        { poolMaxSets := 2, pools := 1, poolSetsCount := [1], poolIndex := 0,
          setPoolMapping := [(0, 0)], nextHandle := 1 } 0 =
      (VkResult.VK_SUCCESS,
       { poolMaxSets := 2, pools := 1, poolSetsCount := [0], poolIndex := 0,
         setPoolMapping := [], nextHandle := 1 }, 1) ∧
    (AllocateDescriptorSet (FreeDescriptorSet
        { poolMaxSets := 2, pools := 1, poolSetsCount := [1], poolIndex := 0,
          setPoolMapping := [(0, 0)], nextHandle := 1 } 0).2.1).1.pools = 1 ∧
    (AllocateDescriptorSet (FreeDescriptorSet
        { poolMaxSets := 2, pools := 1, poolSetsCount := [1], poolIndex := 0,
          setPoolMapping := [(0, 0)], nextHandle := 1 } 0).2.1).1.poolIndex = 0 := by
  have h := claim_C6_pool_growth_and_reuse 2 (by decide)
    { poolMaxSets := 2, pools := 1, poolSetsCount := [1], poolIndex := 0,
      setPoolMapping := [(0, 0)], nextHandle := 1 } 0 0
    rfl (by decide) rfl (by decide) (by decide)
  refine ⟨h.1, h.2.1, ?_, h.2.2.2.1, h.2.2.2.2⟩
  have h3 := h.2.2.1
  simpa [eraseKey] using h3

/-! ## DescriptorSetLayout (core/DescriptorSetLayout.cpp) -/

/-- The shader resource types referenced by DescriptorSetLayout.cpp.
(`shader_module.h` is not among the excerpted sources; the enum is taken from
the constructor's and `FindDescriptorType`'s case analysis.) -/
inductive ShaderResourceType
  | Input
  | InputAttachment
  | Output
  | Image
  | ImageSampler
  | ImageStorage
  | Sampler
  | BufferUniform
  | BufferStorage
  | PushConstant
  | SpecializationConstant
deriving DecidableEq

inductive ShaderResourceMode
  | StaticMode
  | Dynamic
  | UpdateAfterBind
deriving DecidableEq

/-- The Vulkan descriptor types produced by `FindDescriptorType`. -/
inductive VkDescriptorType
  | INPUT_ATTACHMENT
  | SAMPLED_IMAGE
  | COMBINED_IMAGE_SAMPLER
  | STORAGE_IMAGE
  | SAMPLER
  | UNIFORM_BUFFER
  | UNIFORM_BUFFER_DYNAMIC
  | STORAGE_BUFFER
  | STORAGE_BUFFER_DYNAMIC
deriving DecidableEq

structure ShaderResource where
  type : ShaderResourceType
  mode : ShaderResourceMode
  binding : Nat
  array_size : Nat
  stages : Nat
  name : String
deriving DecidableEq

structure VkDescriptorSetLayoutBinding where
  binding : Nat
  descriptorCount : Nat
  descriptorType : VkDescriptorType
  stageFlags : Nat
deriving DecidableEq

def VK_DESCRIPTOR_BINDING_UPDATE_AFTER_BIND_BIT_EXT : Nat := 1

/-- `FindDescriptorType` (DescriptorSetLayout.cpp lines 30-73): maps a shader
resource type plus the dynamic flag to a Vulkan descriptor type; the default
branch throws. -/
def FindDescriptorType : ShaderResourceType → Bool → Except String VkDescriptorType
  | .InputAttachment, _ => .ok .INPUT_ATTACHMENT
  | .Image, _ => .ok .SAMPLED_IMAGE
  | .ImageSampler, _ => .ok .COMBINED_IMAGE_SAMPLER
  | .ImageStorage, _ => .ok .STORAGE_IMAGE
  | .Sampler, _ => .ok .SAMPLER
  | .BufferUniform, true => .ok .UNIFORM_BUFFER_DYNAMIC
  | .BufferUniform, false => .ok .UNIFORM_BUFFER
  | .BufferStorage, true => .ok .STORAGE_BUFFER_DYNAMIC
  | .BufferStorage, false => .ok .STORAGE_BUFFER
  | _, _ => .error "No conversion possible for the shader resource type."

/-- `ValidateFlags` (DescriptorSetLayout.cpp lines 82-98): bindings are assumed
valid when no flags are supplied; otherwise the flag count must equal the
binding count.  (The `gpu` parameter of the C++ function is unused there and
omitted here.) -/
def ValidateFlags (bindings : List VkDescriptorSetLayoutBinding) (flags : List Nat) : Bool :=
  if flags.isEmpty then true
  else if bindings.length ≠ flags.length then false
  else true

/-- The data members of `DescriptorSetLayout` built by its constructor
(DescriptorSetLayout.h lines 76-93; the Vulkan handle and device reference are
not modelled). -/
structure DescriptorSetLayoutModel where
  setIndex : Nat
  bindings : List VkDescriptorSetLayoutBinding
  bindingFlags : List Nat
  bindingsLookup : List (Nat × VkDescriptorSetLayoutBinding)
  bindingFlagsLookup : List (Nat × Nat)
  resourcesLookup : List (String × Nat)
deriving DecidableEq

/-- One iteration of the constructor's resource loop
(DescriptorSetLayout.cpp lines 112-154): skip resources without a binding
point, convert the type (throwing on failure), push the binding-flags entry,
the layout binding, and the three lookup entries. -/
def layoutStep (acc : DescriptorSetLayoutModel) (resource : ShaderResource) :
    Except String DescriptorSetLayoutModel :=
  if resource.type = ShaderResourceType.Input ∨
     resource.type = ShaderResourceType.Output ∨
     resource.type = ShaderResourceType.PushConstant ∨
     resource.type = ShaderResourceType.SpecializationConstant then
    Except.ok acc
  else
    match FindDescriptorType resource.type (decide (resource.mode = ShaderResourceMode.Dynamic)) with
    | Except.error e => Except.error e
    | Except.ok descriptorType =>
        let flag : Nat :=
          if resource.mode = ShaderResourceMode.UpdateAfterBind then
            VK_DESCRIPTOR_BINDING_UPDATE_AFTER_BIND_BIT_EXT
          else 0
        let layoutBinding : VkDescriptorSetLayoutBinding :=
          { binding := resource.binding, descriptorCount := resource.array_size,
            descriptorType := descriptorType, stageFlags := resource.stages }
        Except.ok { acc with
          bindings := acc.bindings ++ [layoutBinding],
          bindingFlags := acc.bindingFlags ++ [flag],
          bindingsLookup := emplaceA acc.bindingsLookup resource.binding layoutBinding,
          bindingFlagsLookup := emplaceA acc.bindingFlagsLookup resource.binding flag,
          resourcesLookup := emplaceA acc.resourcesLookup resource.name resource.binding }

/-- The constructor's loop over the resource set, propagating a thrown
exception exactly like the C++ loop would. -/
def layoutFold (acc : DescriptorSetLayoutModel) :
    List ShaderResource → Except String DescriptorSetLayoutModel
  | [] => Except.ok acc
  | r :: rest =>
      match layoutStep acc r with
      | Except.error e => Except.error e
      | Except.ok acc2 => layoutFold acc2 rest

/-- The `DescriptorSetLayout` constructor (DescriptorSetLayout.cpp lines
103-192): runs the resource loop, then — only when some resource uses
update-after-bind mode — rejects any dynamic resource in the same set and
validates the binding flags.  `vkCreateDescriptorSetLayout` is modelled as
succeeding. -/
def DescriptorSetLayoutMk (setIndex : Nat) (resourceSet : List ShaderResource) :
    Except String DescriptorSetLayoutModel :=
  match layoutFold { setIndex := setIndex, bindings := [], bindingFlags := [],
                     bindingsLookup := [], bindingFlagsLookup := [],
                     resourcesLookup := [] } resourceSet with
  | Except.error e => Except.error e
  | Except.ok acc =>
      if ∃ r ∈ resourceSet, r.mode = ShaderResourceMode.UpdateAfterBind then
        if ∃ r ∈ resourceSet, r.mode = ShaderResourceMode.Dynamic then
          Except.error "Cannot create descriptor set layout, dynamic resources are not allowed if at least one resource is update-after-bind."
        else if !(ValidateFlags acc.bindings acc.bindingFlags) then
          Except.error "Invalid binding, could not create descriptor set layout."
        else
          Except.ok acc
      else
        Except.ok acc

/-- `DescriptorSetLayout::GetLayoutBinding` (DescriptorSetLayout.cpp lines
243-253): lookup in `m_bindingsLookup`, `nullptr` when absent. -/
def GetLayoutBinding (l : DescriptorSetLayoutModel) (bindingIndex : Nat) :
    Option VkDescriptorSetLayoutBinding :=
  findVal l.bindingsLookup bindingIndex

theorem layoutStep_ok (acc : DescriptorSetLayoutModel) (r : ShaderResource) :
    ∃ acc2, layoutStep acc r = Except.ok acc2 := by
  by_cases h : r.type = ShaderResourceType.Input ∨
      r.type = ShaderResourceType.Output ∨
      r.type = ShaderResourceType.PushConstant ∨
      r.type = ShaderResourceType.SpecializationConstant
  · exact ⟨acc, by rw [layoutStep, if_pos h]⟩
  · rw [layoutStep, if_neg h]
    rcases hok : FindDescriptorType r.type (decide (r.mode = ShaderResourceMode.Dynamic))
      with e | dt
    · exfalso
      revert hok
      rcases hd : decide (r.mode = ShaderResourceMode.Dynamic) <;>
        cases ht : r.type <;> simp_all [FindDescriptorType]
    · exact ⟨_, rfl⟩

theorem layoutFold_ok (resourceSet : List ShaderResource) :
    ∀ acc, ∃ acc2, layoutFold acc resourceSet = Except.ok acc2 := by
  induction resourceSet with
  | nil => exact fun acc => ⟨acc, rfl⟩
  | cons r rest ih =>
      intro acc
      obtain ⟨acc1, h1⟩ := layoutStep_ok acc r
      obtain ⟨acc2, h2⟩ := ih acc1
      exact ⟨acc2, by rw [layoutFold, h1]; exact h2⟩

theorem descriptorSetLayoutMk_after_fold (setIndex : Nat)
    (resourceSet : List ShaderResource) (acc : DescriptorSetLayoutModel)
    (hfold : layoutFold { setIndex := setIndex, bindings := [], bindingFlags := [],
                          bindingsLookup := [], bindingFlagsLookup := [],
                          resourcesLookup := [] } resourceSet = Except.ok acc) :
    DescriptorSetLayoutMk setIndex resourceSet =
      if ∃ r ∈ resourceSet, r.mode = ShaderResourceMode.UpdateAfterBind then
        if ∃ r ∈ resourceSet, r.mode = ShaderResourceMode.Dynamic then
          Except.error "Cannot create descriptor set layout, dynamic resources are not allowed if at least one resource is update-after-bind."
        else if !(ValidateFlags acc.bindings acc.bindingFlags) then
          Except.error "Invalid binding, could not create descriptor set layout."
        else
          Except.ok acc
      else
        Except.ok acc := by
  rw [DescriptorSetLayoutMk, hfold]

/-- Claim C5: layout construction fails with the conflict error whenever the
resource set contains both an update-after-bind resource and a dynamic
resource; when no resource uses update-after-bind mode construction succeeds
(no conflict error is possible); and the flags validation rejects a supplied
flag list whose length differs from the binding count. -/
theorem claim_C5_layout_validation (setIndex : Nat) (resourceSet : List ShaderResource) :
    ((∃ r ∈ resourceSet, r.mode = ShaderResourceMode.UpdateAfterBind) →
     (∃ r ∈ resourceSet, r.mode = ShaderResourceMode.Dynamic) →
       DescriptorSetLayoutMk setIndex resourceSet =
         Except.error "Cannot create descriptor set layout, dynamic resources are not allowed if at least one resource is update-after-bind.") ∧
    ((∀ r ∈ resourceSet, r.mode ≠ ShaderResourceMode.UpdateAfterBind) →
       ∃ l, DescriptorSetLayoutMk setIndex resourceSet = Except.ok l) ∧
    (∀ (bindings : List VkDescriptorSetLayoutBinding) (flags : List Nat),
       flags ≠ [] → bindings.length ≠ flags.length → ValidateFlags bindings flags = false) := by
  refine ⟨?_, ?_, ?_⟩
  · intro hu hd
    obtain ⟨acc, hfold⟩ := layoutFold_ok resourceSet _
    rw [descriptorSetLayoutMk_after_fold setIndex resourceSet acc hfold,
      if_pos hu, if_pos hd]
  · intro hno
    obtain ⟨acc, hfold⟩ := layoutFold_ok resourceSet _
    have hnu : ¬ ∃ r ∈ resourceSet, r.mode = ShaderResourceMode.UpdateAfterBind := by
      rintro ⟨r, hr, hm⟩
      exact hno r hr hm
    rw [descriptorSetLayoutMk_after_fold setIndex resourceSet acc hfold, if_neg hnu]
    exact ⟨acc, rfl⟩
  · intro bindings flags hne hlen
    have : flags.isEmpty = false := by
      cases flags with
      | nil => exact absurd rfl hne
      | cons a t => rfl
    rw [ValidateFlags, this]
    simp [hlen]

theorem claim_C5_witness :
    (DescriptorSetLayoutMk 0
        [{ type := ShaderResourceType.BufferUniform, mode := ShaderResourceMode.UpdateAfterBind,
           binding := 0, array_size := 1, stages := 1, name := "a" },
         { type := ShaderResourceType.BufferUniform, mode := ShaderResourceMode.Dynamic,
           binding := 1, array_size := 1, stages := 1, name := "b" }] =
      Except.error "Cannot create descriptor set layout, dynamic resources are not allowed if at least one resource is update-after-bind.") ∧
    (∃ l, DescriptorSetLayoutMk 0
        [{ type := ShaderResourceType.BufferUniform, mode := ShaderResourceMode.StaticMode,
           binding := 0, array_size := 1, stages := 1, name := "a" }] = Except.ok l) ∧
    ValidateFlags [{ binding := 0, descriptorCount := 1,
                     descriptorType := VkDescriptorType.UNIFORM_BUFFER, stageFlags := 1 }] [0, 0] =
      false := by
  refine ⟨?_, ?_, ?_⟩
  · exact (claim_C5_layout_validation 0 _).1 (by simp) (by simp)
  · exact (claim_C5_layout_validation 0 _).2.1 (by simp)
  · exact (claim_C5_layout_validation 0 []).2.2 _ [0, 0] (by simp) (by simp)

/-! ## DescriptorSet (core/DescriptorSet.h, core/DescriptorSet.cpp) -/

structure VkDescriptorBufferInfo where
  buffer : Nat
  offset : Nat
  range : Nat
deriving DecidableEq

structure VkDescriptorImageInfo where
  sampler : Nat
  imageView : Nat
  imageLayout : Nat
deriving DecidableEq

/-- `BindingMap<T>`: binding index to (array element to T). -/
abbrev BindingMap (α : Type) := List (Nat × List (Nat × α))

/-- The payload a `VkWriteDescriptorSet` points at (`pBufferInfo` or
`pImageInfo`); modelled by value. -/
inductive WriteInfo
  | buffer (info : VkDescriptorBufferInfo)
  | image (info : VkDescriptorImageInfo)
deriving DecidableEq

structure VkWriteDescriptorSet where
  dstBinding : Nat
  descriptorType : VkDescriptorType
  dstSet : Nat
  dstArrayElement : Nat
  descriptorCount : Nat
  info : WriteInfo
deriving DecidableEq

structure VkPhysicalDeviceLimits where
  maxUniformBufferRange : Nat
  maxStorageBufferRange : Nat
deriving DecidableEq

/-- Diagnostics emitted through LOGE / LOGW in the descriptor-set code. -/
inductive LogEvent
  | uniformRangeClamped (setIndex binding : Nat)
  | storageRangeClamped (setIndex binding : Nat)
  | missingBufferBinding (binding : Nat)
  | missingImageBinding (binding : Nat)
  | alreadyPrepared
deriving DecidableEq

/-- The range-clamping logic of `DescriptorSet::Prepare` (DescriptorSet.cpp
lines 85-102): clamp a buffer range that exceeds the device limit matching the
binding's descriptor kind, logging the truncation. -/
def clampBufferRange (limits : VkPhysicalDeviceLimits) (setIndex bindingIndex : Nat)
    (descriptorType : VkDescriptorType) (range : Nat) : Nat × List LogEvent :=
  if (descriptorType = VkDescriptorType.UNIFORM_BUFFER ∨
      descriptorType = VkDescriptorType.UNIFORM_BUFFER_DYNAMIC) ∧
     limits.maxUniformBufferRange < range then
    (limits.maxUniformBufferRange, [LogEvent.uniformRangeClamped setIndex bindingIndex])
  else if (descriptorType = VkDescriptorType.STORAGE_BUFFER ∨
           descriptorType = VkDescriptorType.STORAGE_BUFFER_DYNAMIC) ∧
          limits.maxStorageBufferRange < range then
    (limits.maxStorageBufferRange, [LogEvent.storageRangeClamped setIndex bindingIndex])
  else
    (range, [])

/-- Inner loop of `Prepare` over one buffer binding's array elements
(DescriptorSet.cpp lines 81-114): clamp the range in place and emit one write
entry per element. Returns the mutated array, the writes and the diagnostics. -/
def prepareBufferElems (limits : VkPhysicalDeviceLimits) (setIndex handle bindingIndex : Nat)
    (descriptorType : VkDescriptorType) :
    List (Nat × VkDescriptorBufferInfo) →
      List (Nat × VkDescriptorBufferInfo) × List VkWriteDescriptorSet × List LogEvent
  | [] => ([], [], [])
  | (elem, info) :: rest =>
      let c := clampBufferRange limits setIndex bindingIndex descriptorType info.range
      let info2 := { info with range := c.1 }
      let w : VkWriteDescriptorSet :=
        { dstBinding := bindingIndex, descriptorType := descriptorType, dstSet := handle,
          dstArrayElement := elem, descriptorCount := 1, info := WriteInfo.buffer info2 }
      let r := prepareBufferElems limits setIndex handle bindingIndex descriptorType rest
      ((elem, info2) :: r.1, w :: r.2.1, c.2 ++ r.2.2)

/-- Outer loop of `Prepare` over the buffer bindings (DescriptorSet.cpp lines
73-120): bindings absent from the owning layout are skipped with a logged
diagnostic while the rest of the batch proceeds. -/
def prepareBuffers (limits : VkPhysicalDeviceLimits) (layout : DescriptorSetLayoutModel)
    (handle : Nat) :
    BindingMap VkDescriptorBufferInfo →
      BindingMap VkDescriptorBufferInfo × List VkWriteDescriptorSet × List LogEvent
  | [] => ([], [], [])
  | (bindingIndex, arr) :: rest =>
      let r := prepareBuffers limits layout handle rest
      match GetLayoutBinding layout bindingIndex with
      | none =>
          ((bindingIndex, arr) :: r.1, r.2.1, LogEvent.missingBufferBinding bindingIndex :: r.2.2)
      | some bindingInfo =>
          let e := prepareBufferElems limits layout.setIndex handle bindingIndex
            bindingInfo.descriptorType arr
          ((bindingIndex, e.1) :: r.1, e.2.1 ++ r.2.1, e.2.2 ++ r.2.2)

/-- Inner loop of `Prepare` over one image binding's array elements
(DescriptorSet.cpp lines 131-145). -/
def prepareImageElems (handle bindingIndex : Nat) (descriptorType : VkDescriptorType) :
    List (Nat × VkDescriptorImageInfo) → List VkWriteDescriptorSet
  | [] => []
  | (elem, info) :: rest =>
      { dstBinding := bindingIndex, descriptorType := descriptorType, dstSet := handle,
        dstArrayElement := elem, descriptorCount := 1, info := WriteInfo.image info } ::
      prepareImageElems handle bindingIndex descriptorType rest

/-- Outer loop of `Prepare` over the image bindings (DescriptorSet.cpp lines
123-151). -/
def prepareImages (layout : DescriptorSetLayoutModel) (handle : Nat) :
    BindingMap VkDescriptorImageInfo → List VkWriteDescriptorSet × List LogEvent
  | [] => ([], [])
  | (bindingIndex, arr) :: rest =>
      let r := prepareImages layout handle rest
      match GetLayoutBinding layout bindingIndex with
      | none => (r.1, LogEvent.missingImageBinding bindingIndex :: r.2)
      | some bindingInfo =>
          (prepareImageElems handle bindingIndex bindingInfo.descriptorType arr ++ r.1, r.2)

/-- The data members of a `DescriptorSet` (DescriptorSet.h lines 99-118; the
device and pool references are not part of the claims). -/
structure DescriptorSetModel where
  descriptorSetLayout : DescriptorSetLayoutModel
  bufferInfos : BindingMap VkDescriptorBufferInfo
  imageInfos : BindingMap VkDescriptorImageInfo
  handle : Nat
  writeDescriptorSets : List VkWriteDescriptorSet
  updatedBindings : List (Nat × Nat)
deriving DecidableEq

/-- `DescriptorSet::Prepare` (DescriptorSet.cpp lines 63-152): a guarded no-op
when write entries already exist, otherwise builds one write entry per bound
array element, clamping buffer ranges in place. -/
def Prepare (limits : VkPhysicalDeviceLimits) (s : DescriptorSetModel) :
    DescriptorSetModel × List LogEvent :=
  if s.writeDescriptorSets ≠ [] then
    (s, [LogEvent.alreadyPrepared])
  else
    let b := prepareBuffers limits s.descriptorSetLayout s.handle s.bufferInfos
    let i := prepareImages s.descriptorSetLayout s.handle s.imageInfos
    ({ s with bufferInfos := b.1, writeDescriptorSets := b.2.1 ++ i.1 }, b.2.2 ++ i.2)

/-- The `DescriptorSet` constructor (DescriptorSet.cpp lines 28-41): allocates
a handle from the pool and implicitly calls `Prepare`. -/
def mkDescriptorSet (limits : VkPhysicalDeviceLimits) (layout : DescriptorSetLayoutModel)
    (pool : DescriptorPoolState) (bufferInfos : BindingMap VkDescriptorBufferInfo)
    (imageInfos : BindingMap VkDescriptorImageInfo) :
    DescriptorPoolState × DescriptorSetModel × List LogEvent :=
  let a := AllocateDescriptorSet pool
  let p := Prepare limits
    { descriptorSetLayout := layout, bufferInfos := bufferInfos, imageInfos := imageInfos,
      handle := a.2, writeDescriptorSets := [], updatedBindings := [] }
  (a.1, p.1, p.2)

def encDescriptorType : VkDescriptorType → Nat
  | .INPUT_ATTACHMENT => 0
  | .SAMPLED_IMAGE => 1
  | .COMBINED_IMAGE_SAMPLER => 2
  | .STORAGE_IMAGE => 3
  | .SAMPLER => 4
  | .UNIFORM_BUFFER => 5
  | .UNIFORM_BUFFER_DYNAMIC => 6
  | .STORAGE_BUFFER => 7
  | .STORAGE_BUFFER_DYNAMIC => 8

def encWriteInfo : WriteInfo → Nat
  | .buffer b => Nat.pair 0 (Nat.pair b.buffer (Nat.pair b.offset b.range))
  | .image i => Nat.pair 1 (Nat.pair i.sampler (Nat.pair i.imageView i.imageLayout))

/-- Content hash of one write-descriptor entry, including the pointed-to
buffer/image info.  Modelled from the spec: `hash_param` (in
common/resource_caching.h, outside the excerpted sources) is a deterministic,
order-sensitive, collision-free digest of the entry's fields. -/
def hashWrite (w : VkWriteDescriptorSet) : Nat :=
  Nat.pair w.dstBinding (Nat.pair (encDescriptorType w.descriptorType)
    (Nat.pair w.dstSet (Nat.pair w.dstArrayElement
      (Nat.pair w.descriptorCount (encWriteInfo w.info)))))

/-- The first branch of `DescriptorSet::Update` (DescriptorSet.cpp lines
161-177): with an empty subset, keep every entry whose hash differs from the
one last applied for its binding (or that has no applied hash). -/
def collectWriteOperations (updatedBindings : List (Nat × Nat)) :
    List VkWriteDescriptorSet → List VkWriteDescriptorSet
  | [] => []
  | w :: rest =>
      if findVal updatedBindings w.dstBinding ≠ some (hashWrite w) then
        w :: collectWriteOperations updatedBindings rest
      else
        collectWriteOperations updatedBindings rest

/-- The second branch of `DescriptorSet::Update` (DescriptorSet.cpp lines
178-199): same, restricted to entries whose binding is in the subset. -/
def collectWriteOperationsSubset (updatedBindings : List (Nat × Nat))
    (bindingsToUpdate : List Nat) :
    List VkWriteDescriptorSet → List VkWriteDescriptorSet
  | [] => []
  | w :: rest =>
      if bindingsToUpdate.contains w.dstBinding then
        if findVal updatedBindings w.dstBinding ≠ some (hashWrite w) then
          w :: collectWriteOperationsSubset updatedBindings bindingsToUpdate rest
        else
          collectWriteOperationsSubset updatedBindings bindingsToUpdate rest
      else
        collectWriteOperationsSubset updatedBindings bindingsToUpdate rest

/-- `DescriptorSet::Update` (DescriptorSet.cpp lines 154-217).  Returns the
new state, the number of `vkUpdateDescriptorSets` device calls issued (the
call is skipped when no write operation survives the dedup filter), and the
write operations that were sent. -/
def Update (s : DescriptorSetModel) (bindingsToUpdate : List Nat) :
    DescriptorSetModel × Nat × List VkWriteDescriptorSet :=
  let writeOperations :=
    if bindingsToUpdate.isEmpty then
      collectWriteOperations s.updatedBindings s.writeDescriptorSets
    else
      collectWriteOperationsSubset s.updatedBindings bindingsToUpdate s.writeDescriptorSets
  let deviceCalls := if writeOperations.isEmpty then 0 else 1
  let updated :=
    writeOperations.foldl (fun m w => setAssoc m w.dstBinding (hashWrite w)) s.updatedBindings
  ({ s with updatedBindings := updated }, deviceCalls, writeOperations)

theorem collectWriteOperations_eq_filter (m : List (Nat × Nat))
    (ws : List VkWriteDescriptorSet) :
    collectWriteOperations m ws =
      ws.filter (fun w => decide (findVal m w.dstBinding ≠ some (hashWrite w))) := by
  induction ws with
  | nil => rfl
  | cons w rest ih =>
      by_cases h : findVal m w.dstBinding ≠ some (hashWrite w) <;>
        simp [collectWriteOperations, h, ih, List.filter_cons]

theorem collectWriteOperationsSubset_eq_filter (m : List (Nat × Nat))
    (bs : List Nat) (ws : List VkWriteDescriptorSet) :
    collectWriteOperationsSubset m bs ws =
      ws.filter (fun w => bs.contains w.dstBinding &&
        decide (findVal m w.dstBinding ≠ some (hashWrite w))) := by
  induction ws with
  | nil => rfl
  | cons w rest ih =>
      by_cases hc : w.dstBinding ∈ bs
      · by_cases h : findVal m w.dstBinding ≠ some (hashWrite w) <;>
          simp [collectWriteOperationsSubset, hc, h, ih, List.filter_cons]
      · simp [collectWriteOperationsSubset, hc, ih, List.filter_cons]

/-- Last write entry of a list whose binding is `b`; captures which hash
remains recorded for `b` after the write-back loop of `Update`. -/
def lastWith : List VkWriteDescriptorSet → Nat → Option VkWriteDescriptorSet
  | [], _ => none
  | w :: rest, b =>
      match lastWith rest b with
      | some w2 => some w2
      | none => if w.dstBinding = b then some w else none

theorem lastWith_eq_none (ws : List VkWriteDescriptorSet) (b : Nat) :
    lastWith ws b = none ↔ ∀ w ∈ ws, w.dstBinding ≠ b := by
  induction ws with
  | nil => simp [lastWith]
  | cons w rest ih =>
      cases hl : lastWith rest b
      · by_cases h : w.dstBinding = b <;> simp_all [lastWith, hl, h]
      · simp only [lastWith, hl]
        constructor
        · intro hco
          exact absurd hco (by simp)
        · intro hall
          exfalso
          have := (ih.mpr (fun x hx => hall x (by simp [hx])))
          rw [this] at hl
          cases hl

theorem lastWith_mem (ws : List VkWriteDescriptorSet) (b : Nat)
    (w2 : VkWriteDescriptorSet) (h : lastWith ws b = some w2) :
    w2 ∈ ws ∧ w2.dstBinding = b := by
  induction ws with
  | nil => cases h
  | cons w rest ih =>
      rw [lastWith] at h
      cases hl : lastWith rest b with
      | some w3 =>
          rw [hl] at h
          cases h
          have := ih hl
          exact ⟨by simp [this.1], this.2⟩
      | none =>
          rw [hl] at h
          by_cases hb : w.dstBinding = b
          · rw [if_pos hb] at h
            cases h
            exact ⟨by simp, hb⟩
          · rw [if_neg hb] at h
            cases h

theorem findVal_fold_setAssoc (ws : List VkWriteDescriptorSet)
    (m : List (Nat × Nat)) (b : Nat) :
    findVal (ws.foldl (fun m w => setAssoc m w.dstBinding (hashWrite w)) m) b =
      match lastWith ws b with
      | some w => some (hashWrite w)
      | none => findVal m b := by
  induction ws generalizing m with
  | nil => rfl
  | cons w rest ih =>
      rw [List.foldl_cons, ih]
      cases hl : lastWith rest b with
      | some w2 => simp [lastWith, hl]
      | none =>
          simp only [lastWith, hl, findVal_setAssoc]
          by_cases h : w.dstBinding = b <;> simp [h]

theorem update_preserves_writes (s : DescriptorSetModel) (bs : List Nat) :
    ((Update s bs).1).writeDescriptorSets = s.writeDescriptorSets := rfl

theorem after_update_all (s : DescriptorSetModel)
    (hnd : (s.writeDescriptorSets.map (fun w => w.dstBinding)).Nodup) :
    ∀ w ∈ s.writeDescriptorSets,
      findVal ((Update s []).1).updatedBindings w.dstBinding = some (hashWrite w) := by
  intro w hw
  have hub : ((Update s []).1).updatedBindings =
      (collectWriteOperations s.updatedBindings s.writeDescriptorSets).foldl
        (fun m w => setAssoc m w.dstBinding (hashWrite w)) s.updatedBindings := rfl
  rw [hub, findVal_fold_setAssoc]
  set wos := collectWriteOperations s.updatedBindings s.writeDescriptorSets with hwos
  cases hl : lastWith wos w.dstBinding with
  | some w2 =>
      have hm := lastWith_mem wos _ w2 hl
      have hmem2 : w2 ∈ s.writeDescriptorSets := by
        have := hm.1
        rw [hwos, collectWriteOperations_eq_filter] at this
        exact List.mem_of_mem_filter this
      have heq : w2 = w := by
        have hinj := List.inj_on_of_nodup_map hnd
        exact hinj hmem2 hw hm.2
      rw [heq]
  | none =>
      have hnone := (lastWith_eq_none wos w.dstBinding).mp hl
      by_cases hp : findVal s.updatedBindings w.dstBinding ≠ some (hashWrite w)
      · exfalso
        have hwin : w ∈ wos := by
          rw [hwos, collectWriteOperations_eq_filter]
          exact List.mem_filter.mpr ⟨hw, by simpa using hp⟩
        exact hnone w hwin rfl
      · push_neg at hp
        exact hp

theorem filter_set_singleton {α : Type} (p : α → Bool) :
    ∀ (l : List α) (j : Nat), j < l.length → (∀ w ∈ l, p w = false) →
      ∀ w2, p w2 = true → (l.set j w2).filter p = [w2] := by
  intro l
  induction l with
  | nil => intro j hj; simp at hj
  | cons a t ih =>
      intro j hj hall w2 hw2
      cases j with
      | zero =>
          have ht : t.filter p = [] := by
            rw [List.filter_eq_nil_iff]
            intro x hx
            simp [hall x (by simp [hx])]
          simp [List.filter_cons, hw2, ht]
      | succ k =>
          have hpa : p a = false := hall a (by simp)
          have := ih k (by simpa using hj) (fun x hx => hall x (by simp [hx])) w2 hw2
          simp [List.set, List.filter_cons, hpa, this]

/-- Claim C3 (amended): `Update(bindingSubset)` sends exactly the candidate
entries (all entries for an empty subset, otherwise entries whose binding is
in the subset) whose content hash differs from the hash last recorded for
their binding, issuing one batched device call when at least one entry
survives and none otherwise; when every binding number appears in at most one
prepared write entry, a second `Update()` with unchanged bindings issues zero
device calls, and replacing exactly one entry with one of equal binding but
different hash makes the next `Update()` send exactly that entry with exactly
one device call. -/
theorem claim_C3_descriptor_write_dedup (s : DescriptorSetModel)
    (bindingsToUpdate : List Nat)
    (hnd : (s.writeDescriptorSets.map (fun w => w.dstBinding)).Nodup)
    (j : Nat) (wOld w2 : VkWriteDescriptorSet)
    (hget : s.writeDescriptorSets.get? j = some wOld)
    (hb : w2.dstBinding = wOld.dstBinding)
    (hneq : hashWrite w2 ≠ hashWrite wOld) :
    ((Update s bindingsToUpdate).2.2 =
      (if bindingsToUpdate.isEmpty then
        s.writeDescriptorSets.filter
          (fun w => decide (findVal s.updatedBindings w.dstBinding ≠ some (hashWrite w)))
      else
        s.writeDescriptorSets.filter
          (fun w => bindingsToUpdate.contains w.dstBinding &&
            decide (findVal s.updatedBindings w.dstBinding ≠ some (hashWrite w))))) ∧
    ((Update s bindingsToUpdate).2.1 =
      if (Update s bindingsToUpdate).2.2.isEmpty then 0 else 1) ∧
    (Update (Update s []).1 []).2.2 = [] ∧
    (Update (Update s []).1 []).2.1 = 0 ∧
    (Update { (Update s []).1 with
        writeDescriptorSets := s.writeDescriptorSets.set j w2 } []).2.2 = [w2] ∧
    (Update { (Update s []).1 with
        writeDescriptorSets := s.writeDescriptorSets.set j w2 } []).2.1 = 1 := by
  have hchar : (Update s bindingsToUpdate).2.2 =
      (if bindingsToUpdate.isEmpty then
        s.writeDescriptorSets.filter
          (fun w => decide (findVal s.updatedBindings w.dstBinding ≠ some (hashWrite w)))
      else
        s.writeDescriptorSets.filter
          (fun w => bindingsToUpdate.contains w.dstBinding &&
            decide (findVal s.updatedBindings w.dstBinding ≠ some (hashWrite w)))) := by
    by_cases he : bindingsToUpdate.isEmpty <;>
      simp [Update, he, collectWriteOperations_eq_filter,
        collectWriteOperationsSubset_eq_filter]
  have hafter := after_update_all s hnd
  have hsecond : (Update (Update s []).1 []).2.2 = [] := by
    have hub1 : (Update (Update s []).1 []).2.2 =
        collectWriteOperations ((Update s []).1).updatedBindings
          ((Update s []).1).writeDescriptorSets := rfl
    rw [hub1, update_preserves_writes, collectWriteOperations_eq_filter,
      List.filter_eq_nil_iff]
    intro w hw
    simp [hafter w hw]
  have hOldMem : wOld ∈ s.writeDescriptorSets := List.get?_mem hget
  have hjlt : j < s.writeDescriptorSets.length := by
    by_contra hc
    push_neg at hc
    rw [List.get?_eq_none.mpr hc] at hget
    cases hget
  have hthird : (Update { (Update s []).1 with
      writeDescriptorSets := s.writeDescriptorSets.set j w2 } []).2.2 = [w2] := by
    have hub2 : (Update { (Update s []).1 with
        writeDescriptorSets := s.writeDescriptorSets.set j w2 } []).2.2 =
        collectWriteOperations ((Update s []).1).updatedBindings
          (s.writeDescriptorSets.set j w2) := rfl
    rw [hub2, collectWriteOperations_eq_filter]
    apply filter_set_singleton _ _ _ hjlt
    · intro w hw
      simp [hafter w hw]
    · have hv : findVal ((Update s []).1).updatedBindings w2.dstBinding =
          some (hashWrite wOld) := by
        rw [hb]
        exact hafter wOld hOldMem
      have hneq2 : ¬ (hashWrite wOld = hashWrite w2) := fun h => hneq h.symm
      simp [hv, hneq2]
  have hfourth : (Update (Update s []).1 []).2.1 = 0 := by
    have hcalls : (Update (Update s []).1 []).2.1 =
        if (Update (Update s []).1 []).2.2.isEmpty then 0 else 1 := rfl
    rw [hcalls, hsecond]
    rfl
  have hlast : (Update { (Update s []).1 with
      writeDescriptorSets := s.writeDescriptorSets.set j w2 } []).2.1 = 1 := by
    have hcalls : (Update { (Update s []).1 with
        writeDescriptorSets := s.writeDescriptorSets.set j w2 } []).2.1 =
      if (Update { (Update s []).1 with
        writeDescriptorSets := s.writeDescriptorSets.set j w2 } []).2.2.isEmpty
      then 0 else 1 := rfl
    rw [hcalls, hthird]
    rfl
  exact ⟨hchar, rfl, hsecond, hfourth, hthird, hlast⟩

/-- The layout produced by `DescriptorSetLayoutMk` for a single uniform-buffer
resource with two array elements at binding 0. -/
def c3Layout : DescriptorSetLayoutModel :=
  { setIndex := 0,
    bindings := [{ binding := 0, descriptorCount := 2,
                   descriptorType := VkDescriptorType.UNIFORM_BUFFER, stageFlags := 1 }],
    bindingFlags := [0],
    bindingsLookup := [(0, { binding := 0, descriptorCount := 2,
                             descriptorType := VkDescriptorType.UNIFORM_BUFFER,
                             stageFlags := 1 })],
    bindingFlagsLookup := [(0, 0)],
    resourcesLookup := [("ubo", 0)] }

/-- Claim C3 counterexample: a descriptor set whose single binding holds two
array elements with different contents.  `m_updatedBindings` is keyed by
binding number only, so after a full `Update()` it retains only the second
element's hash; the immediately following `Update()` with unchanged bindings
re-sends the first element's write and issues one device call, not zero. -/
theorem claim_C3_counterexample :
    DescriptorSetLayoutMk 0
      [{ type := ShaderResourceType.BufferUniform, mode := ShaderResourceMode.StaticMode,
         binding := 0, array_size := 2, stages := 1, name := "ubo" }] =
      Except.ok c3Layout ∧
    (Update (Update (mkDescriptorSet
        { maxUniformBufferRange := 65536, maxStorageBufferRange := 65536 }
        c3Layout (mkDescriptorPool 16)
        [(0, [(0, { buffer := 1, offset := 0, range := 4 }),
              (1, { buffer := 2, offset := 0, range := 4 })])] []).2.1 []).1 []).2.1 = 1 := by
  constructor
  · decide
  · decide

def wA : VkWriteDescriptorSet :=
  { dstBinding := 0, descriptorType := VkDescriptorType.UNIFORM_BUFFER, dstSet := 0,
    dstArrayElement := 0, descriptorCount := 1,
    info := WriteInfo.buffer { buffer := 1, offset := 0, range := 4 } }

def wB : VkWriteDescriptorSet :=
  { dstBinding := 1, descriptorType := VkDescriptorType.UNIFORM_BUFFER, dstSet := 0,
    dstArrayElement := 0, descriptorCount := 1,
    info := WriteInfo.buffer { buffer := 2, offset := 0, range := 4 } }

def wA2 : VkWriteDescriptorSet :=
  { dstBinding := 0, descriptorType := VkDescriptorType.UNIFORM_BUFFER, dstSet := 0,
    dstArrayElement := 0, descriptorCount := 1,
    info := WriteInfo.buffer { buffer := 3, offset := 0, range := 4 } }

def sW : DescriptorSetModel :=
  { descriptorSetLayout := c3Layout, bufferInfos := [], imageInfos := [], handle := 0,
    writeDescriptorSets := [wA, wB], updatedBindings := [] }

theorem claim_C3_witness :
    (Update (Update sW []).1 []).2.1 = 0 ∧
    (Update { (Update sW []).1 with
        writeDescriptorSets := sW.writeDescriptorSets.set 0 wA2 } []).2.2 = [wA2] := by
  have h := claim_C3_descriptor_write_dedup sW [] (by decide) 0 wA wA2 (by decide) rfl
    (by decide)
  exact ⟨h.2.2.2.1, h.2.2.2.2.1⟩

/-! ## Claim C4: range clamping and soft skipping during Prepare -/

theorem mkDescriptorSet_eq (limits : VkPhysicalDeviceLimits)
    (layout : DescriptorSetLayoutModel) (pool : DescriptorPoolState)
    (bufferInfos : BindingMap VkDescriptorBufferInfo)
    (imageInfos : BindingMap VkDescriptorImageInfo) :
    mkDescriptorSet limits layout pool bufferInfos imageInfos =
      ((AllocateDescriptorSet pool).1,
       { descriptorSetLayout := layout,
         bufferInfos :=
           (prepareBuffers limits layout (AllocateDescriptorSet pool).2 bufferInfos).1,
         imageInfos := imageInfos,
         handle := (AllocateDescriptorSet pool).2,
         writeDescriptorSets :=
           (prepareBuffers limits layout (AllocateDescriptorSet pool).2 bufferInfos).2.1 ++
           (prepareImages layout (AllocateDescriptorSet pool).2 imageInfos).1,
         updatedBindings := [] },
       (prepareBuffers limits layout (AllocateDescriptorSet pool).2 bufferInfos).2.2 ++
       (prepareImages layout (AllocateDescriptorSet pool).2 imageInfos).2) := rfl

theorem mem_prepareBufferElems (limits : VkPhysicalDeviceLimits)
    (setIndex handle bindingIndex : Nat) (dt : VkDescriptorType)
    (arr : List (Nat × VkDescriptorBufferInfo)) (elem : Nat)
    (info : VkDescriptorBufferInfo) (h : (elem, info) ∈ arr) :
    ({ dstBinding := bindingIndex, descriptorType := dt, dstSet := handle,
       dstArrayElement := elem, descriptorCount := 1,
       info := WriteInfo.buffer { info with range :=
         (clampBufferRange limits setIndex bindingIndex dt info.range).1 } } :
      VkWriteDescriptorSet) ∈
      (prepareBufferElems limits setIndex handle bindingIndex dt arr).2.1 := by
  induction arr with
  | nil => cases h
  | cons p rest ih =>
      rcases List.mem_cons.mp h with heq | hrest
      · obtain ⟨pe, pi⟩ := p
        cases heq
        simp [prepareBufferElems]
      · obtain ⟨pe, pi⟩ := p
        simp only [prepareBufferElems, List.mem_cons]
        exact Or.inr (ih hrest)

theorem events_prepareBufferElems (limits : VkPhysicalDeviceLimits)
    (setIndex handle bindingIndex : Nat) (dt : VkDescriptorType)
    (arr : List (Nat × VkDescriptorBufferInfo)) (elem : Nat)
    (info : VkDescriptorBufferInfo) (h : (elem, info) ∈ arr) :
    ∀ ev ∈ (clampBufferRange limits setIndex bindingIndex dt info.range).2,
      ev ∈ (prepareBufferElems limits setIndex handle bindingIndex dt arr).2.2 := by
  induction arr with
  | nil => cases h
  | cons p rest ih =>
      intro ev hev
      obtain ⟨pe, pi⟩ := p
      rcases List.mem_cons.mp h with heq | hrest
      · cases heq
        simp only [prepareBufferElems, List.mem_append]
        exact Or.inl hev
      · simp only [prepareBufferElems, List.mem_append]
        exact Or.inr (ih hrest ev hev)

theorem mem_prepareBuffers (limits : VkPhysicalDeviceLimits)
    (layout : DescriptorSetLayoutModel) (handle : Nat)
    (bm : BindingMap VkDescriptorBufferInfo) (bindingIndex : Nat)
    (arr : List (Nat × VkDescriptorBufferInfo)) (bi : VkDescriptorSetLayoutBinding)
    (hbm : (bindingIndex, arr) ∈ bm) (hsome : GetLayoutBinding layout bindingIndex = some bi) :
    ∀ w ∈ (prepareBufferElems limits layout.setIndex handle bindingIndex
        bi.descriptorType arr).2.1,
      w ∈ (prepareBuffers limits layout handle bm).2.1 := by
  induction bm with
  | nil => cases hbm
  | cons p rest ih =>
      intro w hw
      obtain ⟨b0, arr0⟩ := p
      rcases List.mem_cons.mp hbm with heq | hrest
      · cases heq
        simp only [prepareBuffers, hsome, List.mem_append]
        exact Or.inl hw
      · cases hl : GetLayoutBinding layout b0 with
        | none =>
            simp only [prepareBuffers, hl]
            exact ih hrest w hw
        | some bi0 =>
            simp only [prepareBuffers, hl, List.mem_append]
            exact Or.inr (ih hrest w hw)

theorem events_prepareBuffers (limits : VkPhysicalDeviceLimits)
    (layout : DescriptorSetLayoutModel) (handle : Nat)
    (bm : BindingMap VkDescriptorBufferInfo) (bindingIndex : Nat)
    (arr : List (Nat × VkDescriptorBufferInfo)) (bi : VkDescriptorSetLayoutBinding)
    (hbm : (bindingIndex, arr) ∈ bm) (hsome : GetLayoutBinding layout bindingIndex = some bi) :
    ∀ ev ∈ (prepareBufferElems limits layout.setIndex handle bindingIndex
        bi.descriptorType arr).2.2,
      ev ∈ (prepareBuffers limits layout handle bm).2.2 := by
  induction bm with
  | nil => cases hbm
  | cons p rest ih =>
      intro ev hev
      obtain ⟨b0, arr0⟩ := p
      rcases List.mem_cons.mp hbm with heq | hrest
      · cases heq
        simp only [prepareBuffers, hsome, List.mem_append]
        exact Or.inl hev
      · cases hl : GetLayoutBinding layout b0 with
        | none =>
            simp only [prepareBuffers, hl, List.mem_cons]
            exact Or.inr (ih hrest ev hev)
        | some bi0 =>
            simp only [prepareBuffers, hl, List.mem_append]
            exact Or.inr (ih hrest ev hev)

theorem missing_event_prepareBuffers (limits : VkPhysicalDeviceLimits)
    (layout : DescriptorSetLayoutModel) (handle : Nat)
    (bm : BindingMap VkDescriptorBufferInfo) (bindingIndex : Nat)
    (arr : List (Nat × VkDescriptorBufferInfo))
    (hbm : (bindingIndex, arr) ∈ bm) (hnone : GetLayoutBinding layout bindingIndex = none) :
    LogEvent.missingBufferBinding bindingIndex ∈ (prepareBuffers limits layout handle bm).2.2 := by
  induction bm with
  | nil => cases hbm
  | cons p rest ih =>
      obtain ⟨b0, arr0⟩ := p
      rcases List.mem_cons.mp hbm with heq | hrest
      · cases heq
        simp [prepareBuffers, hnone]
      · cases hl : GetLayoutBinding layout b0 with
        | none =>
            simp only [prepareBuffers, hl, List.mem_cons]
            exact Or.inr (ih hrest)
        | some bi0 =>
            simp only [prepareBuffers, hl, List.mem_append]
            exact Or.inr (ih hrest)

theorem prepareBufferElems_dstBinding (limits : VkPhysicalDeviceLimits)
    (setIndex handle bindingIndex : Nat) (dt : VkDescriptorType)
    (arr : List (Nat × VkDescriptorBufferInfo)) :
    ∀ w ∈ (prepareBufferElems limits setIndex handle bindingIndex dt arr).2.1,
      w.dstBinding = bindingIndex := by
  induction arr with
  | nil => intro w hw; cases hw
  | cons p rest ih =>
      intro w hw
      obtain ⟨pe, pi⟩ := p
      rcases List.mem_cons.mp hw with heq | hrest
      · rw [heq]
      · exact ih w hrest

theorem prepareBuffers_writes_found (limits : VkPhysicalDeviceLimits)
    (layout : DescriptorSetLayoutModel) (handle : Nat)
    (bm : BindingMap VkDescriptorBufferInfo) :
    ∀ w ∈ (prepareBuffers limits layout handle bm).2.1,
      (GetLayoutBinding layout w.dstBinding).isSome := by
  induction bm with
  | nil => intro w hw; cases hw
  | cons p rest ih =>
      intro w hw
      obtain ⟨b0, arr0⟩ := p
      cases hl : GetLayoutBinding layout b0 with
      | none =>
          rw [prepareBuffers] at hw
          rw [hl] at hw
          exact ih w hw
      | some bi0 =>
          rw [prepareBuffers] at hw
          rw [hl] at hw
          rcases List.mem_append.mp hw with hleft | hright
          · have := prepareBufferElems_dstBinding limits layout.setIndex handle b0
              bi0.descriptorType arr0 w hleft
            rw [this, hl]
            rfl
          · exact ih w hright

theorem prepareImageElems_dstBinding (handle bindingIndex : Nat) (dt : VkDescriptorType)
    (arr : List (Nat × VkDescriptorImageInfo)) :
    ∀ w ∈ prepareImageElems handle bindingIndex dt arr, w.dstBinding = bindingIndex := by
  induction arr with
  | nil => intro w hw; cases hw
  | cons p rest ih =>
      intro w hw
      obtain ⟨pe, pi⟩ := p
      rcases List.mem_cons.mp hw with heq | hrest
      · rw [heq]
      · exact ih w hrest

theorem prepareImages_writes_found (layout : DescriptorSetLayoutModel) (handle : Nat)
    (im : BindingMap VkDescriptorImageInfo) :
    ∀ w ∈ (prepareImages layout handle im).1,
      (GetLayoutBinding layout w.dstBinding).isSome := by
  induction im with
  | nil => intro w hw; cases hw
  | cons p rest ih =>
      intro w hw
      obtain ⟨b0, arr0⟩ := p
      cases hl : GetLayoutBinding layout b0 with
      | none =>
          rw [prepareImages] at hw
          rw [hl] at hw
          exact ih w hw
      | some bi0 =>
          rw [prepareImages] at hw
          rw [hl] at hw
          rcases List.mem_append.mp hw with hleft | hright
          · have := prepareImageElems_dstBinding handle b0 bi0.descriptorType arr0 w hleft
            rw [this, hl]
            rfl
          · exact ih w hright

/-- Claim C4: during preparation, every buffer binding present in the owning
layout gets one write entry per array element whose range is the clamped
range; a range exceeding the uniform-buffer (resp. storage-buffer) limit for a
uniform-kind (resp. storage-kind) binding is clamped to exactly that limit
with a diagnostic logged, while the entry is still produced and construction
succeeds; a binding absent from the owning layout produces no write entry at
all (no entry of the set carries its binding number) and logs a diagnostic,
while the remaining bindings of the batch still get their entries. -/
theorem claim_C4_range_clamping (limits : VkPhysicalDeviceLimits)
    (layout : DescriptorSetLayoutModel) (pool : DescriptorPoolState)
    (bufferInfos : BindingMap VkDescriptorBufferInfo)
    (imageInfos : BindingMap VkDescriptorImageInfo)
    (bindingIndex elem : Nat) (arr : List (Nat × VkDescriptorBufferInfo))
    (info : VkDescriptorBufferInfo) (bi : VkDescriptorSetLayoutBinding)
    (hbm : (bindingIndex, arr) ∈ bufferInfos) (hel : (elem, info) ∈ arr) :
    (GetLayoutBinding layout bindingIndex = some bi →
      ({ dstBinding := bindingIndex, descriptorType := bi.descriptorType,
         dstSet := (mkDescriptorSet limits layout pool bufferInfos imageInfos).2.1.handle,
         dstArrayElement := elem, descriptorCount := 1,
         info := WriteInfo.buffer { info with range :=
           (clampBufferRange limits layout.setIndex bindingIndex
             bi.descriptorType info.range).1 } } : VkWriteDescriptorSet) ∈
        (mkDescriptorSet limits layout pool bufferInfos imageInfos).2.1.writeDescriptorSets) ∧
    (GetLayoutBinding layout bindingIndex = some bi →
      (bi.descriptorType = VkDescriptorType.UNIFORM_BUFFER ∨
       bi.descriptorType = VkDescriptorType.UNIFORM_BUFFER_DYNAMIC) →
      limits.maxUniformBufferRange < info.range →
      ((clampBufferRange limits layout.setIndex bindingIndex
          bi.descriptorType info.range).1 = limits.maxUniformBufferRange ∧
       LogEvent.uniformRangeClamped layout.setIndex bindingIndex ∈
         (mkDescriptorSet limits layout pool bufferInfos imageInfos).2.2)) ∧
    (GetLayoutBinding layout bindingIndex = some bi →
      (bi.descriptorType = VkDescriptorType.STORAGE_BUFFER ∨
       bi.descriptorType = VkDescriptorType.STORAGE_BUFFER_DYNAMIC) →
      limits.maxStorageBufferRange < info.range →
      ((clampBufferRange limits layout.setIndex bindingIndex
          bi.descriptorType info.range).1 = limits.maxStorageBufferRange ∧
       LogEvent.storageRangeClamped layout.setIndex bindingIndex ∈
         (mkDescriptorSet limits layout pool bufferInfos imageInfos).2.2)) ∧
    (GetLayoutBinding layout bindingIndex = none →
      ((∀ w ∈ (mkDescriptorSet limits layout pool bufferInfos
          imageInfos).2.1.writeDescriptorSets, w.dstBinding ≠ bindingIndex) ∧
       LogEvent.missingBufferBinding bindingIndex ∈
         (mkDescriptorSet limits layout pool bufferInfos imageInfos).2.2)) := by
  rw [mkDescriptorSet_eq]
  refine ⟨?_, ?_, ?_, ?_⟩
  · intro hsome
    have hw := mem_prepareBufferElems limits layout.setIndex (AllocateDescriptorSet pool).2
      bindingIndex bi.descriptorType arr elem info hel
    have := mem_prepareBuffers limits layout (AllocateDescriptorSet pool).2 bufferInfos
      bindingIndex arr bi hbm hsome _ hw
    exact List.mem_append.mpr (Or.inl this)
  · intro hsome htype hover
    have hclamp : (clampBufferRange limits layout.setIndex bindingIndex
        bi.descriptorType info.range) =
        (limits.maxUniformBufferRange,
         [LogEvent.uniformRangeClamped layout.setIndex bindingIndex]) := by
      rw [clampBufferRange, if_pos ⟨htype, hover⟩]
    refine ⟨by rw [hclamp], ?_⟩
    have hevs := events_prepareBufferElems limits layout.setIndex
      (AllocateDescriptorSet pool).2 bindingIndex bi.descriptorType arr elem info hel
    have hev : LogEvent.uniformRangeClamped layout.setIndex bindingIndex ∈
        (clampBufferRange limits layout.setIndex bindingIndex
          bi.descriptorType info.range).2 := by
      rw [hclamp]
      simp
    have := events_prepareBuffers limits layout (AllocateDescriptorSet pool).2 bufferInfos
      bindingIndex arr bi hbm hsome _ (hevs _ hev)
    exact List.mem_append.mpr (Or.inl this)
  · intro hsome htype hover
    have hfirst : ¬ ((bi.descriptorType = VkDescriptorType.UNIFORM_BUFFER ∨
        bi.descriptorType = VkDescriptorType.UNIFORM_BUFFER_DYNAMIC) ∧
        limits.maxUniformBufferRange < info.range) := by
      rintro ⟨ht, -⟩
      rcases htype with h | h <;> rcases ht with h2 | h2 <;> rw [h] at h2 <;> cases h2
    have hclamp : (clampBufferRange limits layout.setIndex bindingIndex
        bi.descriptorType info.range) =
        (limits.maxStorageBufferRange,
         [LogEvent.storageRangeClamped layout.setIndex bindingIndex]) := by
      rw [clampBufferRange, if_neg hfirst, if_pos ⟨htype, hover⟩]
    refine ⟨by rw [hclamp], ?_⟩
    have hevs := events_prepareBufferElems limits layout.setIndex
      (AllocateDescriptorSet pool).2 bindingIndex bi.descriptorType arr elem info hel
    have hev : LogEvent.storageRangeClamped layout.setIndex bindingIndex ∈
        (clampBufferRange limits layout.setIndex bindingIndex
          bi.descriptorType info.range).2 := by
      rw [hclamp]
      simp
    have := events_prepareBuffers limits layout (AllocateDescriptorSet pool).2 bufferInfos
      bindingIndex arr bi hbm hsome _ (hevs _ hev)
    exact List.mem_append.mpr (Or.inl this)
  · intro hnone
    constructor
    · intro w hw hbad
      rcases List.mem_append.mp hw with hleft | hright
      · have := prepareBuffers_writes_found limits layout (AllocateDescriptorSet pool).2
          bufferInfos w hleft
        rw [hbad, hnone] at this
        cases this
      · have := prepareImages_writes_found layout (AllocateDescriptorSet pool).2
          imageInfos w hright
        rw [hbad, hnone] at this
        cases this
    · exact List.mem_append.mpr (Or.inl (missing_event_prepareBuffers limits layout
        (AllocateDescriptorSet pool).2 bufferInfos bindingIndex arr hbm hnone))

theorem claim_C4_witness :
    (({ dstBinding := 0, descriptorType := VkDescriptorType.UNIFORM_BUFFER, dstSet := 0,
        dstArrayElement := 0, descriptorCount := 1,
        info := WriteInfo.buffer { buffer := 1, offset := 0, range := 8 } } :
        VkWriteDescriptorSet) ∈
      (mkDescriptorSet { maxUniformBufferRange := 8, maxStorageBufferRange := 8 }
        c3Layout (mkDescriptorPool 16)
        [(0, [(0, { buffer := 1, offset := 0, range := 100 })]),
         (7, [(0, { buffer := 2, offset := 0, range := 4 })])]
        []).2.1.writeDescriptorSets) ∧
    LogEvent.uniformRangeClamped 0 0 ∈
      (mkDescriptorSet { maxUniformBufferRange := 8, maxStorageBufferRange := 8 }
        c3Layout (mkDescriptorPool 16)
        [(0, [(0, { buffer := 1, offset := 0, range := 100 })]),
         (7, [(0, { buffer := 2, offset := 0, range := 4 })])]
        []).2.2 ∧
    (∀ w ∈ (mkDescriptorSet { maxUniformBufferRange := 8, maxStorageBufferRange := 8 }
        c3Layout (mkDescriptorPool 16)
        [(0, [(0, { buffer := 1, offset := 0, range := 100 })]),
         (7, [(0, { buffer := 2, offset := 0, range := 4 })])]
        []).2.1.writeDescriptorSets, w.dstBinding ≠ 7) ∧
    LogEvent.missingBufferBinding 7 ∈
      (mkDescriptorSet { maxUniformBufferRange := 8, maxStorageBufferRange := 8 }
        c3Layout (mkDescriptorPool 16)
        [(0, [(0, { buffer := 1, offset := 0, range := 100 })]),
         (7, [(0, { buffer := 2, offset := 0, range := 4 })])]
        []).2.2 := by
  have h1 := claim_C4_range_clamping
    { maxUniformBufferRange := 8, maxStorageBufferRange := 8 } c3Layout
    (mkDescriptorPool 16)
    [(0, [(0, { buffer := 1, offset := 0, range := 100 })]),
     (7, [(0, { buffer := 2, offset := 0, range := 4 })])] [] 0 0
    [(0, { buffer := 1, offset := 0, range := 100 })]
    { buffer := 1, offset := 0, range := 100 }
    { binding := 0, descriptorCount := 2,
      descriptorType := VkDescriptorType.UNIFORM_BUFFER, stageFlags := 1 }
    (by decide) (by decide)
  have h2 := claim_C4_range_clamping
    { maxUniformBufferRange := 8, maxStorageBufferRange := 8 } c3Layout
    (mkDescriptorPool 16)
    [(0, [(0, { buffer := 1, offset := 0, range := 100 })]),
     (7, [(0, { buffer := 2, offset := 0, range := 4 })])] [] 7 0
    [(0, { buffer := 2, offset := 0, range := 4 })]
    { buffer := 2, offset := 0, range := 4 }
    { binding := 0, descriptorCount := 2,
      descriptorType := VkDescriptorType.UNIFORM_BUFFER, stageFlags := 1 }
    (by decide) (by decide)
  refine ⟨h1.1 (by decide), (h1.2.1 (by decide) (Or.inl rfl) (by decide)).2,
    (h2.2.2.2 (by decide)).1, (h2.2.2.2 (by decide)).2⟩

/-! ## ResourceRecord (ResourceRecord.h, ResourceRecord.cpp)

The append-only log.  A serialized entry's payload fields are abstracted to
`Nat` values (e.g. `glslSource` stands for the serialized source text); one
`LogEntry` models the full tagged record one `RegisterX` call writes.  Object
identities (the `const T *` keys of the pointer-to-index tables) are `Nat`. -/

/-- One tagged entry of the stream, tags as in `ResourceType`
(ResourceRecord.h lines 31-37). -/
inductive LogEntry
  | shaderModule (stage glslSource entryPoint shaderVariant : Nat)
  | pipelineLayout (shaderIndices : List Nat)
  | renderPass (attachments loadStoreInfos subpasses : Nat)
  | graphicsPipeline (pipelineLayoutIndex renderPassIndex subpassIndex
      pipelineStateData : Nat)
deriving DecidableEq

/-- The `PipelineState` fields read by `RegisterGraphicsPipeline`
(ResourceRecord.cpp lines 113-149): the pipeline-layout and render-pass object
identities, the subpass index, and the remaining serialized state collapsed
into `pipelineStateData`. -/
structure PipelineState where
  pipelineLayout : Nat
  renderPass : Nat
  subpassIndex : Nat
  pipelineStateData : Nat
deriving DecidableEq

structure ResourceRecordState where
  stream : List LogEntry
  shaderModuleIndices : List Nat
  pipelineLayoutIndices : List Nat
  renderPassIndices : List Nat
  graphicsPipelineIndices : List Nat
  shaderModuleToIndex : List (Nat × Nat)
  pipelineLayoutToIndex : List (Nat × Nat)
  renderPassToIndex : List (Nat × Nat)
  graphicsPipelineToIndex : List (Nat × Nat)
deriving DecidableEq

def emptyRecord : ResourceRecordState := ⟨[], [], [], [], [], [], [], [], []⟩

/-- `ResourceRecord::RegisterShaderModule` (ResourceRecord.cpp lines 75-84):
push the next sequential index, append one tagged entry, return the index. -/
def RegisterShaderModule (r : ResourceRecordState)
    (stage glslSource entryPoint shaderVariant : Nat) : ResourceRecordState × Nat :=
  let idx := r.shaderModuleIndices.length
  ({ r with shaderModuleIndices := r.shaderModuleIndices ++ [idx],
            stream := r.stream ++ [LogEntry.shaderModule stage glslSource entryPoint
              shaderVariant] }, idx)

/-- `ResourceRecord::RegisterPipelineLayout` (ResourceRecord.cpp lines 87-98):
resolve each shader module through the pointer-to-index table
(`std::unordered_map::at` throws when absent, modelled as `none`) and append
one tagged entry holding the resolved indices — never the raw identities. -/
def RegisterPipelineLayout (r : ResourceRecordState) (shaderModules : List Nat) :
    Option (ResourceRecordState × Nat) :=
  match mapOption (findVal r.shaderModuleToIndex) shaderModules with
  | none => none
  | some shaderIndices =>
      let idx := r.pipelineLayoutIndices.length
      some ({ r with pipelineLayoutIndices := r.pipelineLayoutIndices ++ [idx],
                     stream := r.stream ++ [LogEntry.pipelineLayout shaderIndices] }, idx)

/-- `ResourceRecord::RegisterRenderPass` (ResourceRecord.cpp lines 101-110). -/
def RegisterRenderPass (r : ResourceRecordState)
    (attachments loadStoreInfos subpasses : Nat) : ResourceRecordState × Nat :=
  let idx := r.renderPassIndices.length
  ({ r with renderPassIndices := r.renderPassIndices ++ [idx],
            stream := r.stream ++ [LogEntry.renderPass attachments loadStoreInfos
              subpasses] }, idx)

/-- `ResourceRecord::RegisterGraphicsPipeline` (ResourceRecord.cpp lines
113-149): the pipeline-cache argument is ignored; the pipeline layout and
render pass are resolved through their pointer-to-index tables (`at` throws
when absent). -/
def RegisterGraphicsPipeline (r : ResourceRecordState) (_pipelineCache : Nat)
    (pipelineState : PipelineState) : Option (ResourceRecordState × Nat) :=
  match findVal r.pipelineLayoutToIndex pipelineState.pipelineLayout,
        findVal r.renderPassToIndex pipelineState.renderPass with
  | some pipelineLayoutIndex, some renderPassIndex =>
      let idx := r.graphicsPipelineIndices.length
      some ({ r with graphicsPipelineIndices := r.graphicsPipelineIndices ++ [idx],
                     stream := r.stream ++ [LogEntry.graphicsPipeline pipelineLayoutIndex
                       renderPassIndex pipelineState.subpassIndex
                       pipelineState.pipelineStateData] }, idx)
  | _, _ => none

/-- `ResourceRecord::SetShaderModule` (ResourceRecord.cpp lines 152-155):
`m_shaderModuleToIndex[&shaderModule] = index`. -/
def SetShaderModule (r : ResourceRecordState) (index shaderModule : Nat) :
    ResourceRecordState :=
  { r with shaderModuleToIndex := setAssoc r.shaderModuleToIndex shaderModule index }

/-- `ResourceRecord::SetPipelineLayout` (ResourceRecord.cpp lines 158-161). -/
def SetPipelineLayout (r : ResourceRecordState) (index pipelineLayout : Nat) :
    ResourceRecordState :=
  { r with pipelineLayoutToIndex := setAssoc r.pipelineLayoutToIndex pipelineLayout index }

/-- `ResourceRecord::SetRenderPass` (ResourceRecord.cpp lines 164-167). -/
def SetRenderPass (r : ResourceRecordState) (index renderPass : Nat) :
    ResourceRecordState :=
  { r with renderPassToIndex := setAssoc r.renderPassToIndex renderPass index }

/-- `ResourceRecord::SetGraphicsPipeline` (ResourceRecord.cpp lines 170-173). -/
def SetGraphicsPipeline (r : ResourceRecordState) (index graphicsPipeline : Nat) :
    ResourceRecordState :=
  { r with graphicsPipelineToIndex := setAssoc r.graphicsPipelineToIndex graphicsPipeline index }

/-- Claim C7: every `RegisterX` returns the next sequential per-kind index
(the current length of that kind's index vector, which it extends by one,
leaving the other kinds untouched) and appends exactly one tagged entry to the
log; the composite kinds resolve every dependency through the
pointer-to-index table populated by `SetX`, recording table indices and never
raw identities. -/
theorem claim_C7_register_indices (r : ResourceRecordState)
    (stage glslSource entryPoint shaderVariant : Nat)
    (attachments loadStoreInfos subpasses : Nat)
    (shaderModules : List Nat) (shaderIndices : List Nat)
    (pipelineCache : Nat) (pipelineState : PipelineState)
    (plIdx rpIdx : Nat)
    (hsm : mapOption (findVal r.shaderModuleToIndex) shaderModules = some shaderIndices)
    (hpl : findVal r.pipelineLayoutToIndex pipelineState.pipelineLayout = some plIdx)
    (hrp : findVal r.renderPassToIndex pipelineState.renderPass = some rpIdx) :
    (RegisterShaderModule r stage glslSource entryPoint shaderVariant =
      ({ r with shaderModuleIndices :=
                  r.shaderModuleIndices ++ [r.shaderModuleIndices.length],
                stream := r.stream ++ [LogEntry.shaderModule stage glslSource entryPoint
                  shaderVariant] }, r.shaderModuleIndices.length)) ∧
    (RegisterRenderPass r attachments loadStoreInfos subpasses =
      ({ r with renderPassIndices := r.renderPassIndices ++ [r.renderPassIndices.length],
                stream := r.stream ++ [LogEntry.renderPass attachments loadStoreInfos
                  subpasses] }, r.renderPassIndices.length)) ∧
    (RegisterPipelineLayout r shaderModules =
      some ({ r with pipelineLayoutIndices :=
                       r.pipelineLayoutIndices ++ [r.pipelineLayoutIndices.length],
                     stream := r.stream ++ [LogEntry.pipelineLayout shaderIndices] },
        r.pipelineLayoutIndices.length)) ∧
    (RegisterGraphicsPipeline r pipelineCache pipelineState =
      some ({ r with graphicsPipelineIndices :=
                       r.graphicsPipelineIndices ++ [r.graphicsPipelineIndices.length],
                     stream := r.stream ++ [LogEntry.graphicsPipeline plIdx rpIdx
                       pipelineState.subpassIndex pipelineState.pipelineStateData] },
        r.graphicsPipelineIndices.length)) ∧
    (∀ (index shaderModule : Nat),
      findVal (SetShaderModule r index shaderModule).shaderModuleToIndex shaderModule =
        some index) := by
  refine ⟨rfl, rfl, ?_, ?_, ?_⟩
  · rw [RegisterPipelineLayout, hsm]
  · rw [RegisterGraphicsPipeline, hpl, hrp]
  · intro index shaderModule
    rw [SetShaderModule]
    simp [findVal_setAssoc]

/-- A record state whose pointer-to-index tables already associate shader
module `42`, pipeline layout `7` and render pass `9` with index `0`. -/
def recordW : ResourceRecordState :=
  { emptyRecord with shaderModuleToIndex := [(42, 0)],
                     pipelineLayoutToIndex := [(7, 0)],
                     renderPassToIndex := [(9, 0)] }

theorem claim_C7_witness :
    (RegisterShaderModule recordW 1 2 3 4 =
      ({ recordW with shaderModuleIndices := [0],
                      stream := [LogEntry.shaderModule 1 2 3 4] }, 0)) ∧
    (RegisterRenderPass recordW 5 6 7 =
      ({ recordW with renderPassIndices := [0],
                      stream := [LogEntry.renderPass 5 6 7] }, 0)) ∧
    (RegisterPipelineLayout recordW [42] =
      some ({ recordW with pipelineLayoutIndices := [0],
                           stream := [LogEntry.pipelineLayout [0]] }, 0)) ∧
    (RegisterGraphicsPipeline recordW 0
        { pipelineLayout := 7, renderPass := 9, subpassIndex := 1,
          pipelineStateData := 3 } =
      some ({ recordW with graphicsPipelineIndices := [0],
                           stream := [LogEntry.graphicsPipeline 0 0 1 3] }, 0)) ∧
    (∀ (index shaderModule : Nat),
      findVal (SetShaderModule recordW index shaderModule).shaderModuleToIndex
        shaderModule = some index) := by
  have h := claim_C7_register_indices recordW 1 2 3 4 5 6 7 [42] [0] 0
    { pipelineLayout := 7, renderPass := 9, subpassIndex := 1, pipelineStateData := 3 }
    0 0 (by decide) (by decide) (by decide)
  exact h

/-! ## Claim C1: record/replay round trip

The per-kind request operations of `ResourceCache` (ResourceCache.cpp lines
68-115) combined with the recorder, and the replay of a serialized log.
`request_resource` (common/resource_caching.h) and `ResourceReplay`
(resource_replay) are not among the excerpted sources; they are modelled from
the spec as described on each definition.  Object identities are their cache
keys — valid because the cache owns at most one object per key.  Construction
parameters are `Nat`-abstracted; the stored object value is its own key. -/

/-- Encoding of the fixed entry point string `"main"` that
`ResourceCache::RequestShaderModule` supplies (ResourceCache.cpp line 70). -/
def eMain : Nat := 0

/-- Modelled from the spec: `hash_param` over a shader module's identity
parameters (stage, source, entry point, variant) — a deterministic,
order-sensitive, collision-free digest (spec section 3, CacheKey). -/
def hashShaderModule (stage glslSource entryPoint shaderVariant : Nat) : Nat :=
  Nat.pair 0 (Nat.pair stage (Nat.pair glslSource (Nat.pair entryPoint shaderVariant)))

/-- Modelled from the spec: `hash_param` over a pipeline layout's shader
module list (each module contributing its own identity/key). -/
def hashPipelineLayout (shaderModuleKeys : List Nat) : Nat :=
  Nat.pair 1 (encList shaderModuleKeys)

/-- Modelled from the spec: `hash_param` over a render pass's attachments,
load/store infos and subpasses. -/
def hashRenderPass (attachments loadStoreInfos subpasses : Nat) : Nat :=
  Nat.pair 2 (Nat.pair attachments (Nat.pair loadStoreInfos subpasses))

/-- Modelled from the spec: `hash_param` over a graphics pipeline's state
(its pipeline layout, render pass, subpass index and remaining state). -/
def hashGraphicsPipeline (pipelineLayoutKey renderPassKey subpassIndex
    stateData : Nat) : Nat :=
  Nat.pair 3 (Nat.pair pipelineLayoutKey (Nat.pair renderPassKey
    (Nat.pair subpassIndex stateData)))

/-- Modelled from the spec: `hash_param` over a descriptor-set layout's
parameters. -/
def hashDescriptorSetLayout (args : Nat) : Nat := Nat.pair 4 args

/-- Modelled from the spec: `hash_param` over a compute pipeline's state. -/
def hashComputePipeline (args : Nat) : Nat := Nat.pair 5 args

/-- Modelled from the spec: `hash_param` over a framebuffer's render target
and render pass. -/
def hashFramebuffer (args : Nat) : Nat := Nat.pair 6 args

/-- Modelled from the spec: `hash_param` over a descriptor pool's layout. -/
def hashDescriptorPool (layoutArgs : Nat) : Nat := Nat.pair 7 layoutArgs

/-- Modelled from the spec: `hash_param` over a descriptor set's layout, pool
and binding data. -/
def hashDescriptorSet (layoutArgs infosData : Nat) : Nat :=
  Nat.pair 8 (Nat.pair layoutArgs infosData)

/-- One public request operation of `ResourceCache` (ResourceCache.cpp lines
68-115).  A reference to a previously constructed object (a `ShaderModule *`
in `RequestPipelineLayout`, the layout/render pass inside the
`PipelineState` of `RequestGraphicsPipeline`) is given by the same parameter
tuple with which that object was requested. -/
inductive CacheOp
  | requestShaderModule (stage glslSource shaderVariant : Nat)
  | requestPipelineLayout (shaderModules : List (Nat × Nat × Nat))
  | requestDescriptorSetLayout (args : Nat)
  | requestGraphicsPipeline (shaderModules : List (Nat × Nat × Nat))
      (attachments loadStoreInfos subpasses subpassIndex stateData : Nat)
  | requestComputePipeline (args : Nat)
  | requestDescriptorSet (layoutArgs infosData : Nat)
  | requestRenderPass (attachments loadStoreInfos subpasses : Nat)
  | requestFramebuffer (args : Nat)
deriving DecidableEq

/-- The cache key of the shader module a parameter triple denotes (the entry
point is always `"main"`). -/
def moduleKey (m : Nat × Nat × Nat) : Nat :=
  hashShaderModule m.1 m.2.1 eMain m.2.2

/-- Modelled from the spec: one request against the live cache
(`request_resource` in common/resource_caching.h is outside the excerpted
sources).  Per spec section 4.1: compute the key, return on hit; on miss
construct, insert, append a record describing the same arguments to the
attached recorder, and associate the new object with its register index via
`SetX` (spec section 4.2).  Only the four kinds of `ResourceType`
(ResourceRecord.h lines 31-37) have register operations; requests of the
other five kinds touch only the cache.  `RequestDescriptorSet`
(ResourceCache.cpp lines 99-103) first requests the descriptor pool keyed on
the layout, then the descriptor set.  A thrown `at` lookup is `none`. -/
def liveStep (c : ResourceCacheState) (r : ResourceRecordState) :
    CacheOp → Option (ResourceCacheState × ResourceRecordState)
  | .requestShaderModule stage glslSource shaderVariant =>
      let key := hashShaderModule stage glslSource eMain shaderVariant
      if (findVal c.shader_modules key).isSome then some (c, r)
      else
        let reg := RegisterShaderModule r stage glslSource eMain shaderVariant
        some ({ c with shader_modules := c.shader_modules ++ [(key, key)] },
              SetShaderModule reg.1 reg.2 key)
  | .requestPipelineLayout shaderModules =>
      let key := hashPipelineLayout (shaderModules.map moduleKey)
      if (findVal c.pipeline_layouts key).isSome then some (c, r)
      else
        match RegisterPipelineLayout r (shaderModules.map moduleKey) with
        | none => none
        | some reg =>
            some ({ c with pipeline_layouts := c.pipeline_layouts ++ [(key, key)] },
                  SetPipelineLayout reg.1 reg.2 key)
  | .requestDescriptorSetLayout args =>
      let key := hashDescriptorSetLayout args
      some (if (findVal c.descriptor_set_layouts key).isSome then c
            else { c with descriptor_set_layouts :=
                    c.descriptor_set_layouts ++ [(key, key)] }, r)
  | .requestGraphicsPipeline shaderModules attachments loadStoreInfos subpasses
      subpassIndex stateData =>
      let pipelineLayoutKey := hashPipelineLayout (shaderModules.map moduleKey)
      let renderPassKey := hashRenderPass attachments loadStoreInfos subpasses
      let key := hashGraphicsPipeline pipelineLayoutKey renderPassKey subpassIndex stateData
      if (findVal c.graphics_pipelines key).isSome then some (c, r)
      else
        match RegisterGraphicsPipeline r 0
            { pipelineLayout := pipelineLayoutKey, renderPass := renderPassKey,
              subpassIndex := subpassIndex, pipelineStateData := stateData } with
        | none => none
        | some reg =>
            some ({ c with graphics_pipelines := c.graphics_pipelines ++ [(key, key)] },
                  SetGraphicsPipeline reg.1 reg.2 key)
  | .requestComputePipeline args =>
      let key := hashComputePipeline args
      some (if (findVal c.compute_pipelines key).isSome then c
            else { c with compute_pipelines := c.compute_pipelines ++ [(key, key)] }, r)
  | .requestDescriptorSet layoutArgs infosData =>
      let poolKey := hashDescriptorPool layoutArgs
      let c1 := if (findVal c.descriptor_pools poolKey).isSome then c
                else { c with descriptor_pools := c.descriptor_pools ++ [(poolKey, poolKey)] }
      let setKey := hashDescriptorSet layoutArgs infosData
      some (if (findVal c1.descriptor_sets setKey).isSome then c1
            else { c1 with descriptor_sets := c1.descriptor_sets ++ [(setKey, setKey)] }, r)
  | .requestRenderPass attachments loadStoreInfos subpasses =>
      let key := hashRenderPass attachments loadStoreInfos subpasses
      if (findVal c.render_passes key).isSome then some (c, r)
      else
        let reg := RegisterRenderPass r attachments loadStoreInfos subpasses
        some ({ c with render_passes := c.render_passes ++ [(key, key)] },
              SetRenderPass reg.1 reg.2 key)
  | .requestFramebuffer args =>
      let key := hashFramebuffer args
      some (if (findVal c.framebuffers key).isSome then c
            else { c with framebuffers := c.framebuffers ++ [(key, key)] }, r)

def runOpsFrom (c : ResourceCacheState) (r : ResourceRecordState) :
    List CacheOp → Option (ResourceCacheState × ResourceRecordState)
  | [] => some (c, r)
  | op :: rest =>
      match liveStep c r op with
      | none => none
      | some cr => runOpsFrom cr.1 cr.2 rest

/-- A sequence of request operations against a fresh cache with an attached
recorder, starting from the empty state. -/
def runOps (ops : List CacheOp) : Option (ResourceCacheState × ResourceRecordState) :=
  runOpsFrom emptyCacheState emptyRecord ops

/-- Modelled from the spec: the state of `ResourceReplay` (resource_replay is
outside the excerpted sources) — the target cache plus, per referable kind,
the keys of the objects built so far in log order, used to resolve the index
references of composite entries (spec sections 2 and 4.2). -/
structure ReplayState where
  cache : ResourceCacheState
  shader_modules : List Nat
  pipeline_layouts : List Nat
  render_passes : List Nat
deriving DecidableEq

def emptyReplay : ReplayState := ⟨emptyCacheState, [], [], []⟩

/-- Modelled from the spec: replay of one log entry — invoke the corresponding
request operation on the target cache (insert-if-absent under the same hash)
and append the resulting object to the per-kind index list; index references
are resolved through those lists, failing on a dangling index. -/
def replayStep (s : ReplayState) : LogEntry → Option ReplayState
  | .shaderModule stage glslSource entryPoint shaderVariant =>
      let key := hashShaderModule stage glslSource entryPoint shaderVariant
      let c := if (findVal s.cache.shader_modules key).isSome then s.cache
               else { s.cache with shader_modules := s.cache.shader_modules ++ [(key, key)] }
      some { s with cache := c, shader_modules := s.shader_modules ++ [key] }
  | .pipelineLayout shaderIndices =>
      match mapOption (fun i => s.shader_modules[i]?) shaderIndices with
      | none => none
      | some keys =>
          let key := hashPipelineLayout keys
          let c := if (findVal s.cache.pipeline_layouts key).isSome then s.cache
                   else { s.cache with pipeline_layouts :=
                           s.cache.pipeline_layouts ++ [(key, key)] }
          some { s with cache := c, pipeline_layouts := s.pipeline_layouts ++ [key] }
  | .renderPass attachments loadStoreInfos subpasses =>
      let key := hashRenderPass attachments loadStoreInfos subpasses
      let c := if (findVal s.cache.render_passes key).isSome then s.cache
               else { s.cache with render_passes := s.cache.render_passes ++ [(key, key)] }
      some { s with cache := c, render_passes := s.render_passes ++ [key] }
  | .graphicsPipeline pipelineLayoutIndex renderPassIndex subpassIndex stateData =>
      match s.pipeline_layouts[pipelineLayoutIndex]?,
            s.render_passes[renderPassIndex]? with
      | some pipelineLayoutKey, some renderPassKey =>
          let key := hashGraphicsPipeline pipelineLayoutKey renderPassKey
            subpassIndex stateData
          let c := if (findVal s.cache.graphics_pipelines key).isSome then s.cache
                   else { s.cache with graphics_pipelines :=
                           s.cache.graphics_pipelines ++ [(key, key)] }
          some { s with cache := c }
      | _, _ => none

def replayLog (s : ReplayState) : List LogEntry → Option ReplayState
  | [] => some s
  | e :: rest =>
      match replayStep s e with
      | none => none
      | some s2 => replayLog s2 rest

/-- `ResourceCache::Warmup` (ResourceCache.cpp lines 48-53): load the
serialized log into the recorder and replay it end-to-end against a fresh
cache. -/
def Warmup (data : List LogEntry) : Option ReplayState :=
  replayLog emptyReplay data

/-- The referable objects a prefix of operations has made available to later
operations: requested shader-module parameter triples, pipeline-layout module
lists and render-pass triples. -/
structure SeenArgs where
  sms : List (Nat × Nat × Nat)
  pls : List (List (Nat × Nat × Nat))
  rps : List (Nat × Nat × Nat)
deriving DecidableEq

def seenStep (a : SeenArgs) : CacheOp → SeenArgs
  | .requestShaderModule stage glslSource shaderVariant =>
      { a with sms := a.sms ++ [(stage, glslSource, shaderVariant)] }
  | .requestPipelineLayout shaderModules => { a with pls := a.pls ++ [shaderModules] }
  | .requestRenderPass attachments loadStoreInfos subpasses =>
      { a with rps := a.rps ++ [(attachments, loadStoreInfos, subpasses)] }
  | _ => a

/-- Well-formedness of one operation: references only name previously
requested objects (otherwise the live path would dereference objects the
caller never obtained, and the recorder's `at` lookups would throw). -/
def wfOp (a : SeenArgs) : CacheOp → Bool
  | .requestPipelineLayout shaderModules => shaderModules.all (fun m => a.sms.contains m)
  | .requestGraphicsPipeline shaderModules attachments loadStoreInfos subpasses _ _ =>
      a.pls.contains shaderModules &&
      a.rps.contains (attachments, loadStoreInfos, subpasses)
  | _ => true

def wfOps (a : SeenArgs) : List CacheOp → Bool
  | [] => true
  | op :: rest => wfOp a op && wfOps (seenStep a op) rest

theorem findVal_snoc_self {α : Type} (l : List (Nat × α)) (k : Nat) (v : α) :
    (findVal (l ++ [(k, v)]) k).isSome := by
  rw [findVal_append]
  cases h : findVal l k <;> simp [findVal, Option.or]

theorem findVal_snoc_mono {α : Type} (l : List (Nat × α)) (k k2 : Nat) (v : α)
    (h : (findVal l k2).isSome) : (findVal (l ++ [(k, v)]) k2).isSome := by
  rw [findVal_append]
  cases hf : findVal l k2
  · rw [hf] at h
    cases h
  · simp [Option.or]

theorem findVal_snoc_cases {α : Type} (l : List (Nat × α)) (k k2 : Nat) (v : α)
    (h : (findVal (l ++ [(k, v)]) k2).isSome) :
    (findVal l k2).isSome ∨ k2 = k := by
  by_cases hf : (findVal l k2).isSome
  · exact Or.inl hf
  · rw [findVal_append] at h
    rw [Option.not_isSome_iff_eq_none] at hf
    rw [hf] at h
    by_cases hk : k = k2
    · exact Or.inr hk.symm
    · simp [findVal, hk, Option.or] at h

theorem setAssoc_isSome {κ α : Type} [DecidableEq κ] (m : List (κ × α)) (k k2 : κ)
    (v : α) (h : (findVal m k2).isSome ∨ k2 = k) :
    (findVal (setAssoc m k v) k2).isSome := by
  rw [findVal_setAssoc]
  by_cases hk : k = k2
  · simp [hk]
  · rcases h with h | h
    · simpa [hk] using h
    · exact absurd h.symm hk

/-- Correctness of a pointer-to-index table against the replayed per-kind
object list: every table entry points at the position holding that key. -/
def TableOk (table : List (Nat × Nat)) (keys : List Nat) : Prop :=
  ∀ k i, findVal table k = some i → keys[i]? = some k

theorem TableOk_extend (table : List (Nat × Nat)) (keys : List Nat)
    (hT : TableOk table keys) (key : Nat) :
    TableOk (setAssoc table key keys.length) (keys ++ [key]) := by
  intro k i h
  rw [findVal_setAssoc] at h
  by_cases hk : key = k
  · rw [if_pos hk] at h
    cases h
    rw [← hk]
    exact List.getElem?_concat_length keys key
  · rw [if_neg hk] at h
    have hg := hT k i h
    have hlt : i < keys.length := by
      by_contra hge
      push_neg at hge
      rw [List.getElem?_eq_none hge] at hg
      cases hg
    rw [List.getElem?_append_left hlt]
    exact hg

theorem mapOption_get_of_findVal (table : List (Nat × Nat)) (keys : List Nat)
    (hT : TableOk table keys) (mods : List (Nat × Nat × Nat))
    (hall : ∀ m ∈ mods, (findVal table (moduleKey m)).isSome) :
    ∃ ids, mapOption (findVal table) (mods.map moduleKey) = some ids ∧
      mapOption (fun i => keys[i]?) ids = some (mods.map moduleKey) := by
  induction mods with
  | nil => exact ⟨[], rfl, rfl⟩
  | cons m rest ih =>
      obtain ⟨i, hi⟩ := Option.isSome_iff_exists.mp (hall m (by simp))
      obtain ⟨ids, h1, h2⟩ := ih (fun x hx => hall x (by simp [hx]))
      refine ⟨i :: ids, ?_, ?_⟩
      · simp [mapOption, List.map_cons, hi, h1]
      · have hg := hT _ _ hi
        simp [mapOption, hg, h2]

theorem replayLog_append (l1 l2 : List LogEntry) : ∀ s,
    replayLog s (l1 ++ l2) =
      match replayLog s l1 with
      | none => none
      | some s2 => replayLog s2 l2 := by
  induction l1 with
  | nil => intro s; rfl
  | cons e rest ih =>
      intro s
      rw [List.cons_append, replayLog]
      cases h : replayStep s e with
      | none => simp [replayLog, h]
      | some s2 => simp [replayLog, h, ih s2]

/-- Simulation invariant between a live cache-plus-recorder state (whose
available references are collected in `a`) and the replay of the recorder's
log: replay succeeds and reproduces, entry for entry, the four recorded maps,
leaves the five unrecorded maps empty, and the recorder's tables agree with
the replayed per-kind object lists. -/
def CacheInv (a : SeenArgs) (c : ResourceCacheState)
    (r : ResourceRecordState) : Prop :=
  ∃ rp : ReplayState,
    replayLog emptyReplay r.stream = some rp ∧
    rp.cache.shader_modules = c.shader_modules ∧
    rp.cache.pipeline_layouts = c.pipeline_layouts ∧
    rp.cache.render_passes = c.render_passes ∧
    rp.cache.graphics_pipelines = c.graphics_pipelines ∧
    rp.cache.descriptor_set_layouts = [] ∧
    rp.cache.descriptor_pools = [] ∧
    rp.cache.descriptor_sets = [] ∧
    rp.cache.compute_pipelines = [] ∧
    rp.cache.framebuffers = [] ∧
    r.shaderModuleIndices.length = rp.shader_modules.length ∧
    r.pipelineLayoutIndices.length = rp.pipeline_layouts.length ∧
    r.renderPassIndices.length = rp.render_passes.length ∧
    TableOk r.shaderModuleToIndex rp.shader_modules ∧
    TableOk r.pipelineLayoutToIndex rp.pipeline_layouts ∧
    TableOk r.renderPassToIndex rp.render_passes ∧
    (∀ k, (findVal c.shader_modules k).isSome →
      (findVal r.shaderModuleToIndex k).isSome) ∧
    (∀ k, (findVal c.pipeline_layouts k).isSome →
      (findVal r.pipelineLayoutToIndex k).isSome) ∧
    (∀ k, (findVal c.render_passes k).isSome →
      (findVal r.renderPassToIndex k).isSome) ∧
    (∀ m ∈ a.sms, (findVal c.shader_modules (moduleKey m)).isSome) ∧
    (∀ mods ∈ a.pls,
      (findVal c.pipeline_layouts (hashPipelineLayout (mods.map moduleKey))).isSome) ∧
    (∀ t ∈ a.rps,
      (findVal c.render_passes (hashRenderPass t.1 t.2.1 t.2.2)).isSome)

theorem cacheInv_init : CacheInv ⟨[], [], []⟩ emptyCacheState emptyRecord := by
  refine ⟨emptyReplay, rfl, rfl, rfl, rfl, rfl, rfl, rfl, rfl, rfl, rfl, rfl, rfl,
    rfl, ?_, ?_, ?_, ?_, ?_, ?_, ?_, ?_, ?_⟩
  · intro k i h; cases h
  · intro k i h; cases h
  · intro k i h; cases h
  · intro k h; cases h
  · intro k h; cases h
  · intro k h; cases h
  · intro m hm; cases hm
  · intro m hm; cases hm
  · intro m hm; cases hm

/-- Requests of the five unrecorded kinds change neither the recorder nor the
four recorded maps, so the invariant transfers. -/
theorem cacheInv_other_fields (a : SeenArgs) (c : ResourceCacheState)
    (r : ResourceRecordState) (hInv : CacheInv a c r) (c2 : ResourceCacheState)
    (h1 : c2.shader_modules = c.shader_modules)
    (h2 : c2.pipeline_layouts = c.pipeline_layouts)
    (h3 : c2.render_passes = c.render_passes)
    (h4 : c2.graphics_pipelines = c.graphics_pipelines) :
    CacheInv a c2 r := by
  obtain ⟨rp, hplay, hsm, hpl, hrpass, hgp, hdsl, hdpool, hdset, hcp, hfb,
    hlenSM, hlenPL, hlenRP, htabSM, htabPL, htabRP, hctSM, hctPL, hctRP,
    hseenSM, hseenPL, hseenRP⟩ := hInv
  exact ⟨rp, hplay, by rw [hsm, h1], by rw [hpl, h2], by rw [hrpass, h3],
    by rw [hgp, h4], hdsl, hdpool, hdset, hcp, hfb, hlenSM, hlenPL, hlenRP,
    htabSM, htabPL, htabRP,
    fun k hk => hctSM k (by rwa [h1] at hk),
    fun k hk => hctPL k (by rwa [h2] at hk),
    fun k hk => hctRP k (by rwa [h3] at hk),
    fun m hm => by rw [h1]; exact hseenSM m hm,
    fun mods hm => by rw [h2]; exact hseenPL mods hm,
    fun t ht => by rw [h3]; exact hseenRP t ht⟩

theorem liveStep_inv_sm (a : SeenArgs) (c : ResourceCacheState)
    (r : ResourceRecordState) (stage glslSource shaderVariant : Nat)
    (hInv : CacheInv a c r) :
    ∃ cr, liveStep c r (CacheOp.requestShaderModule stage glslSource shaderVariant) =
        some cr ∧
      CacheInv (seenStep a (CacheOp.requestShaderModule stage glslSource shaderVariant))
        cr.1 cr.2 := by
  obtain ⟨rp, hplay, hsm, hpl, hrpass, hgp, hdsl, hdpool, hdset, hcp, hfb,
    hlenSM, hlenPL, hlenRP, htabSM, htabPL, htabRP, hctSM, hctPL, hctRP,
    hseenSM, hseenPL, hseenRP⟩ := hInv
  by_cases hhit : (findVal c.shader_modules
      (hashShaderModule stage glslSource eMain shaderVariant)).isSome
  · refine ⟨(c, r), by simp [liveStep, hhit], ?_⟩
    refine ⟨rp, hplay, hsm, hpl, hrpass, hgp, hdsl, hdpool, hdset, hcp, hfb,
      hlenSM, hlenPL, hlenRP, htabSM, htabPL, htabRP, hctSM, hctPL, hctRP,
      ?_, hseenPL, hseenRP⟩
    intro m hm
    rcases List.mem_append.mp hm with hold | hnew
    · exact hseenSM m hold
    · have hm2 : m = (stage, glslSource, shaderVariant) := by simpa using hnew
      rw [hm2]
      exact hhit
  · have hstep : replayStep rp
        (LogEntry.shaderModule stage glslSource eMain shaderVariant) =
        some { rp with
          cache := { rp.cache with shader_modules := c.shader_modules ++
            [(hashShaderModule stage glslSource eMain shaderVariant,
              hashShaderModule stage glslSource eMain shaderVariant)] },
          shader_modules := rp.shader_modules ++
            [hashShaderModule stage glslSource eMain shaderVariant] } := by
      simp only [replayStep]
      rw [hsm, if_neg hhit]
    have hlive : liveStep c r
        (CacheOp.requestShaderModule stage glslSource shaderVariant) =
        some ({ c with shader_modules := c.shader_modules ++
            [(hashShaderModule stage glslSource eMain shaderVariant,
              hashShaderModule stage glslSource eMain shaderVariant)] },
          SetShaderModule
            (RegisterShaderModule r stage glslSource eMain shaderVariant).1
            (RegisterShaderModule r stage glslSource eMain shaderVariant).2
            (hashShaderModule stage glslSource eMain shaderVariant)) := by
      simp only [liveStep]
      rw [if_neg hhit]
    refine ⟨_, hlive, ?_⟩
    refine ⟨{ rp with
        cache := { rp.cache with shader_modules := c.shader_modules ++
          [(hashShaderModule stage glslSource eMain shaderVariant,
            hashShaderModule stage glslSource eMain shaderVariant)] },
        shader_modules := rp.shader_modules ++
          [hashShaderModule stage glslSource eMain shaderVariant] },
      ?_, rfl, hpl, hrpass, hgp, hdsl, hdpool, hdset, hcp, hfb,
      ?_, hlenPL, hlenRP, ?_, htabPL, htabRP, ?_, hctPL, hctRP, ?_, hseenPL, hseenRP⟩
    · show replayLog emptyReplay (r.stream ++
        [LogEntry.shaderModule stage glslSource eMain shaderVariant]) = some _
      rw [replayLog_append, hplay]
      show replayLog rp
        [LogEntry.shaderModule stage glslSource eMain shaderVariant] = some _
      rw [replayLog, hstep]
      rfl
    · show (r.shaderModuleIndices ++ [r.shaderModuleIndices.length]).length =
        (rp.shader_modules ++
          [hashShaderModule stage glslSource eMain shaderVariant]).length
      simp [hlenSM]
    · show TableOk (setAssoc r.shaderModuleToIndex
        (hashShaderModule stage glslSource eMain shaderVariant)
        r.shaderModuleIndices.length)
        (rp.shader_modules ++ [hashShaderModule stage glslSource eMain shaderVariant])
      have hext := TableOk_extend _ _ htabSM
        (hashShaderModule stage glslSource eMain shaderVariant)
      rwa [← hlenSM] at hext
    · intro k2 hk2
      rcases findVal_snoc_cases _ _ _ _ hk2 with hold | heq
      · exact setAssoc_isSome _ _ _ _ (Or.inl (hctSM _ hold))
      · exact setAssoc_isSome _ _ _ _ (Or.inr heq)
    · intro m hm
      rcases List.mem_append.mp hm with hold | hnew
      · exact findVal_snoc_mono _ _ _ _ (hseenSM m hold)
      · have hm2 : m = (stage, glslSource, shaderVariant) := by simpa using hnew
        rw [hm2]
        exact findVal_snoc_self _ _ _

theorem liveStep_inv_rp (a : SeenArgs) (c : ResourceCacheState)
    (r : ResourceRecordState) (attachments loadStoreInfos subpasses : Nat)
    (hInv : CacheInv a c r) :
    ∃ cr, liveStep c r
        (CacheOp.requestRenderPass attachments loadStoreInfos subpasses) = some cr ∧
      CacheInv (seenStep a
        (CacheOp.requestRenderPass attachments loadStoreInfos subpasses)) cr.1 cr.2 := by
  obtain ⟨rp, hplay, hsm, hpl, hrpass, hgp, hdsl, hdpool, hdset, hcp, hfb,
    hlenSM, hlenPL, hlenRP, htabSM, htabPL, htabRP, hctSM, hctPL, hctRP,
    hseenSM, hseenPL, hseenRP⟩ := hInv
  by_cases hhit : (findVal c.render_passes
      (hashRenderPass attachments loadStoreInfos subpasses)).isSome
  · refine ⟨(c, r), by simp [liveStep, hhit], ?_⟩
    refine ⟨rp, hplay, hsm, hpl, hrpass, hgp, hdsl, hdpool, hdset, hcp, hfb,
      hlenSM, hlenPL, hlenRP, htabSM, htabPL, htabRP, hctSM, hctPL, hctRP,
      hseenSM, hseenPL, ?_⟩
    intro t ht
    rcases List.mem_append.mp ht with hold | hnew
    · exact hseenRP t hold
    · have ht2 : t = (attachments, loadStoreInfos, subpasses) := by simpa using hnew
      rw [ht2]
      exact hhit
  · have hstep : replayStep rp
        (LogEntry.renderPass attachments loadStoreInfos subpasses) =
        some { rp with
          cache := { rp.cache with render_passes := c.render_passes ++
            [(hashRenderPass attachments loadStoreInfos subpasses,
              hashRenderPass attachments loadStoreInfos subpasses)] },
          render_passes := rp.render_passes ++
            [hashRenderPass attachments loadStoreInfos subpasses] } := by
      simp only [replayStep]
      rw [hrpass, if_neg hhit]
    have hlive : liveStep c r
        (CacheOp.requestRenderPass attachments loadStoreInfos subpasses) =
        some ({ c with render_passes := c.render_passes ++
            [(hashRenderPass attachments loadStoreInfos subpasses,
              hashRenderPass attachments loadStoreInfos subpasses)] },
          SetRenderPass
            (RegisterRenderPass r attachments loadStoreInfos subpasses).1
            (RegisterRenderPass r attachments loadStoreInfos subpasses).2
            (hashRenderPass attachments loadStoreInfos subpasses)) := by
      simp only [liveStep]
      rw [if_neg hhit]
    refine ⟨_, hlive, ?_⟩
    refine ⟨{ rp with
        cache := { rp.cache with render_passes := c.render_passes ++
          [(hashRenderPass attachments loadStoreInfos subpasses,
            hashRenderPass attachments loadStoreInfos subpasses)] },
        render_passes := rp.render_passes ++
          [hashRenderPass attachments loadStoreInfos subpasses] },
      ?_, hsm, hpl, rfl, hgp, hdsl, hdpool, hdset, hcp, hfb,
      hlenSM, hlenPL, ?_, htabSM, htabPL, ?_, hctSM, hctPL, ?_, hseenSM, hseenPL, ?_⟩
    · show replayLog emptyReplay (r.stream ++
        [LogEntry.renderPass attachments loadStoreInfos subpasses]) = some _
      rw [replayLog_append, hplay]
      show replayLog rp
        [LogEntry.renderPass attachments loadStoreInfos subpasses] = some _
      rw [replayLog, hstep]
      rfl
    · show (r.renderPassIndices ++ [r.renderPassIndices.length]).length =
        (rp.render_passes ++
          [hashRenderPass attachments loadStoreInfos subpasses]).length
      simp [hlenRP]
    · show TableOk (setAssoc r.renderPassToIndex
        (hashRenderPass attachments loadStoreInfos subpasses)
        r.renderPassIndices.length)
        (rp.render_passes ++ [hashRenderPass attachments loadStoreInfos subpasses])
      have hext := TableOk_extend _ _ htabRP
        (hashRenderPass attachments loadStoreInfos subpasses)
      rwa [← hlenRP] at hext
    · intro k2 hk2
      rcases findVal_snoc_cases _ _ _ _ hk2 with hold | heq
      · exact setAssoc_isSome _ _ _ _ (Or.inl (hctRP _ hold))
      · exact setAssoc_isSome _ _ _ _ (Or.inr heq)
    · intro t ht
      rcases List.mem_append.mp ht with hold | hnew
      · exact findVal_snoc_mono _ _ _ _ (hseenRP t hold)
      · have ht2 : t = (attachments, loadStoreInfos, subpasses) := by simpa using hnew
        rw [ht2]
        exact findVal_snoc_self _ _ _

theorem liveStep_inv_pl (a : SeenArgs) (c : ResourceCacheState)
    (r : ResourceRecordState) (shaderModules : List (Nat × Nat × Nat))
    (hwf : ∀ m ∈ shaderModules, m ∈ a.sms) (hInv : CacheInv a c r) :
    ∃ cr, liveStep c r (CacheOp.requestPipelineLayout shaderModules) = some cr ∧
      CacheInv (seenStep a (CacheOp.requestPipelineLayout shaderModules)) cr.1 cr.2 := by
  obtain ⟨rp, hplay, hsm, hpl, hrpass, hgp, hdsl, hdpool, hdset, hcp, hfb,
    hlenSM, hlenPL, hlenRP, htabSM, htabPL, htabRP, hctSM, hctPL, hctRP,
    hseenSM, hseenPL, hseenRP⟩ := hInv
  by_cases hhit : (findVal c.pipeline_layouts
      (hashPipelineLayout (shaderModules.map moduleKey))).isSome
  · refine ⟨(c, r), by simp [liveStep, hhit], ?_⟩
    refine ⟨rp, hplay, hsm, hpl, hrpass, hgp, hdsl, hdpool, hdset, hcp, hfb,
      hlenSM, hlenPL, hlenRP, htabSM, htabPL, htabRP, hctSM, hctPL, hctRP,
      hseenSM, ?_, hseenRP⟩
    intro mods hm
    rcases List.mem_append.mp hm with hold | hnew
    · exact hseenPL mods hold
    · have hm2 : mods = shaderModules := by simpa using hnew
      rw [hm2]
      exact hhit
  · have hallT : ∀ m ∈ shaderModules,
        (findVal r.shaderModuleToIndex (moduleKey m)).isSome :=
      fun m hm => hctSM _ (hseenSM m (hwf m hm))
    obtain ⟨ids, hmapT, hmapK⟩ :=
      mapOption_get_of_findVal _ _ htabSM shaderModules hallT
    have hregEq : RegisterPipelineLayout r (shaderModules.map moduleKey) =
        some ({ r with pipelineLayoutIndices :=
                         r.pipelineLayoutIndices ++ [r.pipelineLayoutIndices.length],
                       stream := r.stream ++ [LogEntry.pipelineLayout ids] },
              r.pipelineLayoutIndices.length) := by
      rw [RegisterPipelineLayout, hmapT]
    have hlive : liveStep c r (CacheOp.requestPipelineLayout shaderModules) =
        some ({ c with pipeline_layouts := c.pipeline_layouts ++
            [(hashPipelineLayout (shaderModules.map moduleKey),
              hashPipelineLayout (shaderModules.map moduleKey))] },
          SetPipelineLayout
            { r with pipelineLayoutIndices :=
                       r.pipelineLayoutIndices ++ [r.pipelineLayoutIndices.length],
                     stream := r.stream ++ [LogEntry.pipelineLayout ids] }
            r.pipelineLayoutIndices.length
            (hashPipelineLayout (shaderModules.map moduleKey))) := by
      simp only [liveStep, hregEq]
      rw [if_neg hhit]
    have hstep : replayStep rp (LogEntry.pipelineLayout ids) =
        some { rp with
          cache := { rp.cache with pipeline_layouts := c.pipeline_layouts ++
            [(hashPipelineLayout (shaderModules.map moduleKey),
              hashPipelineLayout (shaderModules.map moduleKey))] },
          pipeline_layouts := rp.pipeline_layouts ++
            [hashPipelineLayout (shaderModules.map moduleKey)] } := by
      simp only [replayStep, hmapK, hpl]
      rw [if_neg hhit]
    refine ⟨_, hlive, ?_⟩
    refine ⟨{ rp with
        cache := { rp.cache with pipeline_layouts := c.pipeline_layouts ++
          [(hashPipelineLayout (shaderModules.map moduleKey),
            hashPipelineLayout (shaderModules.map moduleKey))] },
        pipeline_layouts := rp.pipeline_layouts ++
          [hashPipelineLayout (shaderModules.map moduleKey)] },
      ?_, hsm, rfl, hrpass, hgp, hdsl, hdpool, hdset, hcp, hfb,
      hlenSM, ?_, hlenRP, htabSM, ?_, htabRP, hctSM, ?_, hctRP, hseenSM, ?_, hseenRP⟩
    · show replayLog emptyReplay (r.stream ++ [LogEntry.pipelineLayout ids]) = some _
      rw [replayLog_append, hplay]
      show replayLog rp [LogEntry.pipelineLayout ids] = some _
      rw [replayLog, hstep]
      rfl
    · show (r.pipelineLayoutIndices ++ [r.pipelineLayoutIndices.length]).length =
        (rp.pipeline_layouts ++
          [hashPipelineLayout (shaderModules.map moduleKey)]).length
      simp [hlenPL]
    · show TableOk (setAssoc r.pipelineLayoutToIndex
        (hashPipelineLayout (shaderModules.map moduleKey))
        r.pipelineLayoutIndices.length)
        (rp.pipeline_layouts ++ [hashPipelineLayout (shaderModules.map moduleKey)])
      have hext := TableOk_extend _ _ htabPL
        (hashPipelineLayout (shaderModules.map moduleKey))
      rwa [← hlenPL] at hext
    · intro k2 hk2
      rcases findVal_snoc_cases _ _ _ _ hk2 with hold | heq
      · exact setAssoc_isSome _ _ _ _ (Or.inl (hctPL _ hold))
      · exact setAssoc_isSome _ _ _ _ (Or.inr heq)
    · intro mods hm
      rcases List.mem_append.mp hm with hold | hnew
      · exact findVal_snoc_mono _ _ _ _ (hseenPL mods hold)
      · have hm2 : mods = shaderModules := by simpa using hnew
        rw [hm2]
        exact findVal_snoc_self _ _ _

theorem liveStep_inv_gp (a : SeenArgs) (c : ResourceCacheState)
    (r : ResourceRecordState) (shaderModules : List (Nat × Nat × Nat))
    (attachments loadStoreInfos subpasses subpassIndex stateData : Nat)
    (hwfPL : shaderModules ∈ a.pls)
    (hwfRP : (attachments, loadStoreInfos, subpasses) ∈ a.rps)
    (hInv : CacheInv a c r) :
    ∃ cr, liveStep c r (CacheOp.requestGraphicsPipeline shaderModules attachments
        loadStoreInfos subpasses subpassIndex stateData) = some cr ∧
      CacheInv (seenStep a (CacheOp.requestGraphicsPipeline shaderModules attachments
        loadStoreInfos subpasses subpassIndex stateData)) cr.1 cr.2 := by
  obtain ⟨rp, hplay, hsm, hpl, hrpass, hgp, hdsl, hdpool, hdset, hcp, hfb,
    hlenSM, hlenPL, hlenRP, htabSM, htabPL, htabRP, hctSM, hctPL, hctRP,
    hseenSM, hseenPL, hseenRP⟩ := hInv
  by_cases hhit : (findVal c.graphics_pipelines
      (hashGraphicsPipeline (hashPipelineLayout (shaderModules.map moduleKey))
        (hashRenderPass attachments loadStoreInfos subpasses)
        subpassIndex stateData)).isSome
  · exact ⟨(c, r), by simp [liveStep, hhit],
      ⟨rp, hplay, hsm, hpl, hrpass, hgp, hdsl, hdpool, hdset, hcp, hfb,
        hlenSM, hlenPL, hlenRP, htabSM, htabPL, htabRP, hctSM, hctPL, hctRP,
        hseenSM, hseenPL, hseenRP⟩⟩
  · obtain ⟨plIdx, hplIdx⟩ :=
      Option.isSome_iff_exists.mp (hctPL _ (hseenPL shaderModules hwfPL))
    obtain ⟨rpIdx, hrpIdx⟩ :=
      Option.isSome_iff_exists.mp
        (hctRP _ (hseenRP (attachments, loadStoreInfos, subpasses) hwfRP))
    have hgetPL := htabPL _ _ hplIdx
    have hgetRP := htabRP _ _ hrpIdx
    have hregEq : RegisterGraphicsPipeline r 0
        { pipelineLayout := hashPipelineLayout (shaderModules.map moduleKey),
          renderPass := hashRenderPass attachments loadStoreInfos subpasses,
          subpassIndex := subpassIndex, pipelineStateData := stateData } =
        some ({ r with graphicsPipelineIndices :=
                         r.graphicsPipelineIndices ++ [r.graphicsPipelineIndices.length],
                       stream := r.stream ++ [LogEntry.graphicsPipeline plIdx rpIdx
                         subpassIndex stateData] },
              r.graphicsPipelineIndices.length) := by
      simp only [RegisterGraphicsPipeline, hplIdx, hrpIdx]
    have hlive : liveStep c r (CacheOp.requestGraphicsPipeline shaderModules
        attachments loadStoreInfos subpasses subpassIndex stateData) =
        some ({ c with graphics_pipelines := c.graphics_pipelines ++
            [(hashGraphicsPipeline (hashPipelineLayout (shaderModules.map moduleKey))
                (hashRenderPass attachments loadStoreInfos subpasses)
                subpassIndex stateData,
              hashGraphicsPipeline (hashPipelineLayout (shaderModules.map moduleKey))
                (hashRenderPass attachments loadStoreInfos subpasses)
                subpassIndex stateData)] },
          SetGraphicsPipeline
            { r with graphicsPipelineIndices :=
                       r.graphicsPipelineIndices ++ [r.graphicsPipelineIndices.length],
                     stream := r.stream ++ [LogEntry.graphicsPipeline plIdx rpIdx
                       subpassIndex stateData] }
            r.graphicsPipelineIndices.length
            (hashGraphicsPipeline (hashPipelineLayout (shaderModules.map moduleKey))
              (hashRenderPass attachments loadStoreInfos subpasses)
              subpassIndex stateData)) := by
      simp only [liveStep, hregEq]
      rw [if_neg hhit]
    have hstep : replayStep rp
        (LogEntry.graphicsPipeline plIdx rpIdx subpassIndex stateData) =
        some { rp with
          cache := { rp.cache with graphics_pipelines := c.graphics_pipelines ++
            [(hashGraphicsPipeline (hashPipelineLayout (shaderModules.map moduleKey))
                (hashRenderPass attachments loadStoreInfos subpasses)
                subpassIndex stateData,
              hashGraphicsPipeline (hashPipelineLayout (shaderModules.map moduleKey))
                (hashRenderPass attachments loadStoreInfos subpasses)
                subpassIndex stateData)] } } := by
      simp only [replayStep, hgetPL, hgetRP, hgp]
      rw [if_neg hhit]
    refine ⟨_, hlive, ?_⟩
    refine ⟨{ rp with
        cache := { rp.cache with graphics_pipelines := c.graphics_pipelines ++
          [(hashGraphicsPipeline (hashPipelineLayout (shaderModules.map moduleKey))
              (hashRenderPass attachments loadStoreInfos subpasses)
              subpassIndex stateData,
            hashGraphicsPipeline (hashPipelineLayout (shaderModules.map moduleKey))
              (hashRenderPass attachments loadStoreInfos subpasses)
              subpassIndex stateData)] } },
      ?_, hsm, hpl, hrpass, rfl, hdsl, hdpool, hdset, hcp, hfb,
      hlenSM, hlenPL, hlenRP, htabSM, htabPL, htabRP, hctSM, hctPL, hctRP,
      hseenSM, hseenPL, hseenRP⟩
    · show replayLog emptyReplay (r.stream ++
        [LogEntry.graphicsPipeline plIdx rpIdx subpassIndex stateData]) = some _
      rw [replayLog_append, hplay]
      show replayLog rp
        [LogEntry.graphicsPipeline plIdx rpIdx subpassIndex stateData] = some _
      rw [replayLog, hstep]
      rfl

theorem liveStep_inv (a : SeenArgs) (c : ResourceCacheState)
    (r : ResourceRecordState) (op : CacheOp) (hwf : wfOp a op = true)
    (hInv : CacheInv a c r) :
    ∃ cr, liveStep c r op = some cr ∧ CacheInv (seenStep a op) cr.1 cr.2 := by
  cases op with
  | requestShaderModule stage glslSource shaderVariant =>
      exact liveStep_inv_sm a c r stage glslSource shaderVariant hInv
  | requestPipelineLayout shaderModules =>
      have hall : ∀ m ∈ shaderModules, m ∈ a.sms := by
        rw [wfOp, List.all_eq_true] at hwf
        intro m hm
        simpa using hwf m hm
      exact liveStep_inv_pl a c r shaderModules hall hInv
  | requestDescriptorSetLayout args =>
      refine ⟨_, rfl, cacheInv_other_fields a c r hInv _ ?_ ?_ ?_ ?_⟩ <;>
        (first | rfl | (split <;> rfl))
  | requestGraphicsPipeline shaderModules attachments loadStoreInfos subpasses
      subpassIndex stateData =>
      rw [wfOp, Bool.and_eq_true] at hwf
      have hpls : shaderModules ∈ a.pls := by simpa using hwf.1
      have hrps : (attachments, loadStoreInfos, subpasses) ∈ a.rps := by
        simpa using hwf.2
      exact liveStep_inv_gp a c r shaderModules attachments loadStoreInfos subpasses
        subpassIndex stateData hpls hrps hInv
  | requestComputePipeline args =>
      refine ⟨_, rfl, cacheInv_other_fields a c r hInv _ ?_ ?_ ?_ ?_⟩ <;>
        (first | rfl | (split <;> rfl))
  | requestDescriptorSet layoutArgs infosData =>
      refine ⟨_, rfl, cacheInv_other_fields a c r hInv _ ?_ ?_ ?_ ?_⟩ <;>
        (first | rfl | (split <;> split <;> rfl))
  | requestRenderPass attachments loadStoreInfos subpasses =>
      exact liveStep_inv_rp a c r attachments loadStoreInfos subpasses hInv
  | requestFramebuffer args =>
      refine ⟨_, rfl, cacheInv_other_fields a c r hInv _ ?_ ?_ ?_ ?_⟩ <;>
        (first | rfl | (split <;> rfl))

theorem runOps_inv (ops : List CacheOp) : ∀ (a : SeenArgs) (c : ResourceCacheState)
    (r : ResourceRecordState), wfOps a ops = true → CacheInv a c r →
    ∃ cr, runOpsFrom c r ops = some cr ∧ CacheInv (ops.foldl seenStep a) cr.1 cr.2 := by
  induction ops with
  | nil => exact fun a c r _ hInv => ⟨(c, r), rfl, hInv⟩
  | cons op rest ih =>
      intro a c r hwf hInv
      rw [wfOps, Bool.and_eq_true] at hwf
      obtain ⟨cr1, hstep, hInv1⟩ := liveStep_inv a c r op hwf.1 hInv
      obtain ⟨cr2, hrun, hInv2⟩ := ih (seenStep a op) cr1.1 cr1.2 hwf.2 hInv1
      refine ⟨cr2, ?_, hInv2⟩
      rw [runOpsFrom, hstep]
      exact hrun

/-- Claim C1 (amended): replaying the serialized log of a well-formed sequence
of live request operations into a fresh cache reproduces exactly the same
cache-key maps for the four recorded resource kinds (shader module, pipeline
layout, render pass, graphics pipeline), while the five kinds the recorder
does not serialize (descriptor-set layout, descriptor pool, descriptor set,
compute pipeline, framebuffer) are left empty by replay. -/
theorem claim_C1_record_replay_round_trip (ops : List CacheOp)
    (hwf : wfOps { sms := [], pls := [], rps := [] } ops = true) :
    ∃ (c : ResourceCacheState) (r : ResourceRecordState) (rp : ReplayState),
      runOps ops = some (c, r) ∧
      Warmup r.stream = some rp ∧
      rp.cache.shader_modules = c.shader_modules ∧
      rp.cache.pipeline_layouts = c.pipeline_layouts ∧
      rp.cache.render_passes = c.render_passes ∧
      rp.cache.graphics_pipelines = c.graphics_pipelines ∧
      rp.cache.descriptor_set_layouts = [] ∧
      rp.cache.descriptor_pools = [] ∧
      rp.cache.descriptor_sets = [] ∧
      rp.cache.compute_pipelines = [] ∧
      rp.cache.framebuffers = [] := by
  obtain ⟨cr, hrun, hInv⟩ := runOps_inv ops { sms := [], pls := [], rps := [] }
    emptyCacheState emptyRecord hwf cacheInv_init
  obtain ⟨rp, hplay, h1, h2, h3, h4, h5, h6, h7, h8, h9, -⟩ := hInv
  refine ⟨cr.1, cr.2, rp, ?_, hplay, h1, h2, h3, h4, h5, h6, h7, h8, h9⟩
  show runOpsFrom emptyCacheState emptyRecord ops = some (cr.1, cr.2)
  rw [hrun]

/-- Claim C1 counterexample: a cache populated by a single
descriptor-set-layout request serializes to an empty log, so replaying it
yields an empty descriptor-set-layout map while the original cache has one
key — the round trip fails for the kinds the recorder does not cover. -/
theorem claim_C1_counterexample :
    (runOps [CacheOp.requestDescriptorSetLayout 0]).isSome = true ∧
    ((runOps [CacheOp.requestDescriptorSetLayout 0]).map
      (fun cr => cr.1.descriptor_set_layouts.length)) = some 1 ∧
    ((runOps [CacheOp.requestDescriptorSetLayout 0]).bind
      (fun cr => (Warmup cr.2.stream).map
        (fun rp => rp.cache.descriptor_set_layouts))) = some [] := by
  refine ⟨rfl, rfl, rfl⟩

def opsW : List CacheOp :=
  [CacheOp.requestShaderModule 1 2 3,
   CacheOp.requestPipelineLayout [(1, 2, 3)],
   CacheOp.requestRenderPass 4 5 6,
   CacheOp.requestGraphicsPipeline [(1, 2, 3)] 4 5 6 0 9,
   CacheOp.requestShaderModule 1 2 3,
   CacheOp.requestDescriptorSetLayout 7,
   CacheOp.requestDescriptorSet 7 8]

theorem claim_C1_witness :
    (runOps opsW).bind (fun cr => (Warmup cr.2.stream).map (fun rp =>
      decide (rp.cache.shader_modules = cr.1.shader_modules ∧
        rp.cache.pipeline_layouts = cr.1.pipeline_layouts ∧
        rp.cache.render_passes = cr.1.render_passes ∧
        rp.cache.graphics_pipelines = cr.1.graphics_pipelines ∧
        rp.cache.descriptor_set_layouts = [] ∧
        rp.cache.descriptor_sets = []))) = some true := by
  obtain ⟨c, r, rp, h1, h2, h3, h4, h5, h6, h7, h8, h9, h10, h11⟩ :=
    claim_C1_record_replay_round_trip opsW (by decide)
  rw [h1]
  show (Warmup r.stream).map _ = some true
  rw [h2]
  simp [h3, h4, h5, h6, h7, h9]

/-! ## Claim C2: `ResourceCache::UpdateDescriptorSets` (ResourceCache.cpp lines 125-198)

The operation reads and writes only the `descriptor_sets` map, whose values
are refined here from opaque ids to full `DescriptorSetModel`s. -/

/-- In-place rewrite of one image info when it references the old view
(ResourceCache.cpp lines 144-150). -/
def rwInfo (oldView newView : Nat) (info : VkDescriptorImageInfo) :
    VkDescriptorImageInfo :=
  if info.imageView = oldView then { info with imageView := newView } else info

/-- The image-info maps of one set after the inner loops of one `(old, new)`
iteration (every matching element rewritten in place). -/
def setImageInfosRw (oldView newView : Nat) (m : BindingMap VkDescriptorImageInfo) :
    BindingMap VkDescriptorImageInfo :=
  m.map (fun p => (p.1, p.2.map (fun q => (q.1, rwInfo oldView newView q.2))))

/-- Whether one `(old, new)` iteration finds a matching element in this set
(triggering `matches.insert(key)`, ResourceCache.cpp line 147). -/
def setMatchesPair (oldView : Nat) (s : DescriptorSetModel) : Bool :=
  s.imageInfos.any (fun p => p.2.any (fun q => q.2.imageView = oldView))

/-- The write-descriptor entries one `(old, new)` iteration pushes for this
set (ResourceCache.cpp lines 152-166): one entry per matching element whose
binding exists in the set's layout, pointing at the rewritten info. -/
def setWritesPair (oldView newView : Nat) (s : DescriptorSetModel) :
    List VkWriteDescriptorSet :=
  s.imageInfos.flatMap (fun p =>
    p.2.flatMap (fun q =>
      if q.2.imageView = oldView then
        match GetLayoutBinding s.descriptorSetLayout p.1 with
        | some bindingInfo =>
            [{ dstBinding := p.1, descriptorType := bindingInfo.descriptorType,
               dstSet := s.handle, dstArrayElement := q.1, descriptorCount := 1,
               info := WriteInfo.image (rwInfo oldView newView q.2) }]
        | none => []
      else []))

/-- The diagnostics one `(old, new)` iteration logs for this set
(ResourceCache.cpp line 169): one per matching element whose binding is
absent from the set's layout. -/
def setEventsPair (oldView : Nat) (s : DescriptorSetModel) : List LogEvent :=
  s.imageInfos.flatMap (fun p =>
    p.2.flatMap (fun q =>
      if q.2.imageView = oldView then
        match GetLayoutBinding s.descriptorSetLayout p.1 with
        | some _ => []
        | none => [LogEvent.missingImageBinding p.1]
      else []))

/-- One iteration of the outer view loop over the whole map: rewrite every
set, collect the pushed write entries, the diagnostics, and the keys inserted
into `matches` (in map order; the `std::set` semantics are applied later). -/
def pairStep (m : List (Nat × DescriptorSetModel)) (oldView newView : Nat) :
    List (Nat × DescriptorSetModel) × List VkWriteDescriptorSet ×
      List LogEvent × List Nat :=
  (m.map (fun kv => (kv.1,
     { kv.2 with imageInfos := setImageInfosRw oldView newView kv.2.imageInfos })),
   m.flatMap (fun kv => setWritesPair oldView newView kv.2),
   m.flatMap (fun kv => setEventsPair oldView kv.2),
   (m.filter (fun kv => setMatchesPair oldView kv.2)).map (fun kv => kv.1))

/-- The outer loop over the `(oldViews[i], newViews[i])` pairs
(ResourceCache.cpp lines 131-176), threading the mutated map. -/
def viewsFold (m : List (Nat × DescriptorSetModel)) :
    List (Nat × Nat) →
      List (Nat × DescriptorSetModel) × List VkWriteDescriptorSet ×
        List LogEvent × List Nat
  | [] => (m, [], [], [])
  | (oldView, newView) :: pairs =>
      let s := pairStep m oldView newView
      let r := viewsFold s.1 pairs
      (r.1, s.2.1 ++ r.2.1, s.2.2.1 ++ r.2.2.1, s.2.2.2 ++ r.2.2.2)

/-- Ordered-unique insertion; models `std::set<size_t>::insert`. -/
def insertSorted (k : Nat) : List Nat → List Nat
  | [] => [k]
  | x :: xs =>
      if k < x then k :: x :: xs
      else if k = x then x :: xs
      else x :: insertSorted k xs

/-- The final contents of the `std::set<size_t> matches` after all inserts,
iterated in ascending key order. -/
def buildMatches (raw : List Nat) : List Nat :=
  raw.foldl (fun acc k => insertSorted k acc) []

def encBufferInfo (b : VkDescriptorBufferInfo) : Nat :=
  Nat.pair b.buffer (Nat.pair b.offset b.range)

def encImageInfo (i : VkDescriptorImageInfo) : Nat :=
  Nat.pair i.sampler (Nat.pair i.imageView i.imageLayout)

def encBindingMap {α : Type} (f : α → Nat) (m : BindingMap α) : Nat :=
  encList (m.map (fun p => Nat.pair p.1 (encList (p.2.map (fun q => Nat.pair q.1 (f q.2))))))

def encLayoutBinding (b : VkDescriptorSetLayoutBinding) : Nat :=
  Nat.pair b.binding (Nat.pair b.descriptorCount
    (Nat.pair (encDescriptorType b.descriptorType) b.stageFlags))

def encLayout (l : DescriptorSetLayoutModel) : Nat :=
  Nat.pair l.setIndex (Nat.pair (encList (l.bindings.map encLayoutBinding))
    (encList l.bindingFlags))

/-- Modelled from the spec: `hash_param(newKey, layout, bufferInfos,
imageInfos)` (ResourceCache.cpp lines 192-193) — the deterministic,
order-sensitive, collision-free content hash over the set's layout and bound
resources. -/
def hashDescriptorSetContent (layout : DescriptorSetLayoutModel)
    (bufferInfos : BindingMap VkDescriptorBufferInfo)
    (imageInfos : BindingMap VkDescriptorImageInfo) : Nat :=
  Nat.pair 9 (Nat.pair (encLayout layout)
    (Nat.pair (encBindingMap encBufferInfo bufferInfos)
      (encBindingMap encImageInfo imageInfos)))

/-- The content hash a descriptor set is re-keyed under. -/
def newKeyOf (s : DescriptorSetModel) : Nat :=
  hashDescriptorSetContent s.descriptorSetLayout s.bufferInfos s.imageInfos

/-- The re-keying loop over the sorted matches (ResourceCache.cpp lines
184-197): move the set out, erase its old key, recompute the content hash,
and `emplace` it back.  An absent match key would dereference an end iterator
in the C++; the model skips it (unreachable: matches are collected from the
map's own keys). -/
def rekeyMatches : List (Nat × DescriptorSetModel) → List Nat →
    List (Nat × DescriptorSetModel)
  | m, [] => m
  | m, k :: ms =>
      match findVal m k with
      | none => rekeyMatches m ms
      | some ds => rekeyMatches (emplaceA (eraseKey m k) (newKeyOf ds) ds) ms

structure UpdateDescriptorSetsResult where
  descriptor_sets : List (Nat × DescriptorSetModel)
  deviceUpdateCalls : Nat
  setUpdates : List VkWriteDescriptorSet
  events : List LogEvent
deriving DecidableEq

/-- `ResourceCache::UpdateDescriptorSets` (ResourceCache.cpp lines 125-198):
run the view loop, issue a single batched `vkUpdateDescriptorSets` call
exactly when at least one write entry was collected, then re-key the matched
sets under their recomputed content hashes.  The C++ indexes `newViews[i]`
for `i < oldViews.size()`; the zip realizes that pairing (the claim's
equal-length hypothesis makes it total). -/
def UpdateDescriptorSets (m : List (Nat × DescriptorSetModel))
    (oldViews newViews : List Nat) : UpdateDescriptorSetsResult :=
  let f := viewsFold m (oldViews.zip newViews)
  let setUpdates := f.2.1
  { descriptor_sets := rekeyMatches f.1 (buildMatches f.2.2.2),
    deviceUpdateCalls := if setUpdates.isEmpty then 0 else 1,
    setUpdates := setUpdates,
    events := f.2.2.1 }

/-- The final view an image view value is rewritten to by a pairing of old
and new views (first matching old view wins; with distinct old views and new
views disjoint from old views this is what the sequential loop computes). -/
def swapView (pairs : List (Nat × Nat)) (v : Nat) : Nat :=
  (findVal pairs v).getD v

def swapSet (pairs : List (Nat × Nat)) (s : DescriptorSetModel) :
    DescriptorSetModel :=
  { s with imageInfos := s.imageInfos.map (fun p => (p.1,
      p.2.map (fun q => (q.1, { q.2 with imageView := swapView pairs q.2.imageView })))) }

/-- A set references one of the old views through some image binding. -/
def setTouches (olds : List Nat) (s : DescriptorSetModel) : Prop :=
  ∃ p ∈ s.imageInfos, ∃ q ∈ p.2, q.2.imageView ∈ olds

/-- An empty descriptor set layout (no declared bindings). -/
def c2Layout : DescriptorSetLayoutModel :=
  { setIndex := 0, bindings := [], bindingFlags := [],
    bindingsLookup := [], bindingFlagsLookup := [], resourcesLookup := [] }

/-- A cached descriptor set holding an image info at binding 0, which its
layout does not declare (Prepare skips such bindings for writes but keeps
them in the stored image-info map). -/
def c2Set : DescriptorSetModel :=
  { descriptorSetLayout := c2Layout, bufferInfos := [],
    imageInfos := [(0, [(0, { sampler := 0, imageView := 7, imageLayout := 1 })])],
    handle := 5, writeDescriptorSets := [], updatedBindings := [] }

/-- Claim C2 counterexample: replacing view 7 by view 9 rewrites the stored
binding and re-keys the set, yet issues zero — not exactly one — batched
device update calls and produces no write entry covering the rewritten
binding, because the binding is absent from the set's layout. -/
theorem claim_C2_counterexample :
    (UpdateDescriptorSets [(100, c2Set)] [7] [9]).deviceUpdateCalls = 0 ∧
    (UpdateDescriptorSets [(100, c2Set)] [7] [9]).setUpdates = [] ∧
    (UpdateDescriptorSets [(100, c2Set)] [7] [9]).descriptor_sets.map
        (fun kv => kv.2.imageInfos) =
      [[(0, [(0, { sampler := 0, imageView := 9, imageLayout := 1 })])]] := by
  refine ⟨rfl, rfl, by decide⟩

/-! ### Association-list and sorted-insert lemmas used by the C2 analysis -/

theorem map_self {α : Type} (f : α → α) (l : List α) (h : ∀ x ∈ l, f x = x) :
    l.map f = l := by
  induction l with
  | nil => rfl
  | cons a rest ih =>
      rw [List.map_cons, h a (by simp), ih (fun x hx => h x (by simp [hx]))]

theorem findVal_eq_none_iff {κ α : Type} [DecidableEq κ] (l : List (κ × α)) (k : κ) :
    findVal l k = none ↔ k ∉ l.map Prod.fst := by
  induction l with
  | nil => simp [findVal]
  | cons p rest ih =>
      obtain ⟨pk, pv⟩ := p
      by_cases h : pk = k
      · subst h
        simp [findVal]
      · have h2 : ¬ k = pk := fun he => h he.symm
        simp [findVal, h, h2, ih]

theorem findVal_isSome_iff {κ α : Type} [DecidableEq κ] (l : List (κ × α)) (k : κ) :
    (findVal l k).isSome ↔ k ∈ l.map Prod.fst := by
  induction l with
  | nil => simp [findVal]
  | cons p rest ih =>
      obtain ⟨pk, pv⟩ := p
      by_cases h : pk = k
      · subst h
        simp [findVal]
      · have h2 : ¬ k = pk := fun he => h he.symm
        simp [findVal, h, h2, ih]

theorem mem_of_findVal {κ α : Type} [DecidableEq κ] (l : List (κ × α)) (k : κ) (v : α)
    (h : findVal l k = some v) : (k, v) ∈ l := by
  induction l with
  | nil => simp [findVal] at h
  | cons p rest ih =>
      obtain ⟨pk, pv⟩ := p
      by_cases hk : pk = k
      · subst hk
        rw [findVal, if_pos rfl] at h
        cases h
        exact List.mem_cons_self _ _
      · rw [findVal, if_neg hk] at h
        exact List.mem_cons_of_mem _ (ih h)

theorem findVal_of_mem_nodup {κ α : Type} [DecidableEq κ] (l : List (κ × α)) (k : κ) (v : α)
    (hmem : (k, v) ∈ l) (hnd : (l.map Prod.fst).Nodup) : findVal l k = some v := by
  induction l with
  | nil => simp at hmem
  | cons p rest ih =>
      obtain ⟨pk, pv⟩ := p
      rw [List.map_cons, List.nodup_cons] at hnd
      rcases List.mem_cons.mp hmem with h | h
      · injection h with h1 h2
        subst h1
        subst h2
        rw [findVal, if_pos rfl]
      · have hne : pk ≠ k := by
          intro he
          subst he
          exact hnd.1 (List.mem_map.mpr ⟨(pk, v), h, rfl⟩)
        simp [findVal, hne]
        exact ih h hnd.2

theorem eraseKey_sublist {κ α : Type} [DecidableEq κ] (l : List (κ × α)) (k : κ) :
    List.Sublist (eraseKey l k) l := by
  induction l with
  | nil => exact List.Sublist.refl _
  | cons p rest ih =>
      obtain ⟨pk, pv⟩ := p
      by_cases h : pk = k
      · simp only [eraseKey, if_pos h]
        exact List.Sublist.cons (pk, pv) (List.Sublist.refl rest)
      · simp only [eraseKey, if_neg h]
        exact List.Sublist.cons₂ (pk, pv) ih

theorem mem_eraseKey_of_ne {κ α : Type} [DecidableEq κ] (l : List (κ × α))
    (k k2 : κ) (v2 : α) (hne : k2 ≠ k) (hmem : (k2, v2) ∈ l) :
    (k2, v2) ∈ eraseKey l k := by
  induction l with
  | nil => simp at hmem
  | cons p rest ih =>
      obtain ⟨pk, pv⟩ := p
      rcases List.mem_cons.mp hmem with h | h
      · injection h with h1 h2
        subst h1
        subst h2
        simp only [eraseKey, if_neg hne]
        exact List.mem_cons_self _ _
      · by_cases hk : pk = k
        · simpa [eraseKey, hk] using h
        · simp [eraseKey, hk]
          exact Or.inr (ih h)

theorem keys_eraseKey_nodup {κ α : Type} [DecidableEq κ] (l : List (κ × α)) (k : κ)
    (h : (l.map Prod.fst).Nodup) : ((eraseKey l k).map Prod.fst).Nodup :=
  List.Nodup.sublist (List.Sublist.map Prod.fst (eraseKey_sublist l k)) h

theorem mem_keys_eraseKey {κ α : Type} [DecidableEq κ] (l : List (κ × α)) (k k2 : κ)
    (hnd : (l.map Prod.fst).Nodup) :
    k2 ∈ (eraseKey l k).map Prod.fst ↔ k2 ∈ l.map Prod.fst ∧ k2 ≠ k := by
  induction l with
  | nil => simp [eraseKey]
  | cons p rest ih =>
      obtain ⟨pk, pv⟩ := p
      rw [List.map_cons, List.nodup_cons] at hnd
      by_cases h : pk = k
      · subst h
        simp only [eraseKey, if_pos rfl, List.map_cons, List.mem_cons]
        constructor
        · intro hm
          have : k2 ≠ pk := by
            intro he
            exact hnd.1 (he ▸ hm)
          exact ⟨Or.inr hm, this⟩
        · rintro ⟨(rfl | hm), hne⟩
          · exact absurd rfl hne
          · exact hm
      · simp only [eraseKey, if_neg h, List.map_cons, List.mem_cons, ih hnd.2]
        constructor
        · rintro (rfl | ⟨hm, hne⟩)
          · exact ⟨Or.inl rfl, h⟩
          · exact ⟨Or.inr hm, hne⟩
        · rintro ⟨(rfl | hm), hne⟩
          · exact Or.inl rfl
          · exact Or.inr ⟨hm, hne⟩

theorem findVal_eraseKey_ne {κ α : Type} [DecidableEq κ] (l : List (κ × α)) (k k2 : κ)
    (hne : k2 ≠ k) : findVal (eraseKey l k) k2 = findVal l k2 := by
  induction l with
  | nil => simp [eraseKey]
  | cons p rest ih =>
      obtain ⟨pk, pv⟩ := p
      by_cases h : pk = k
      · subst h
        have : ¬ pk = k2 := fun he => hne he.symm
        simp [eraseKey, findVal, this]
      · by_cases h2 : pk = k2 <;> simp [eraseKey, findVal, h, h2, hne, ih]

theorem emplaceA_fresh {κ α : Type} [DecidableEq κ] (m : List (κ × α)) (k : κ) (v : α)
    (h : k ∉ m.map Prod.fst) : emplaceA m k v = m ++ [(k, v)] := by
  unfold emplaceA
  rw [(findVal_eq_none_iff m k).mpr h]

theorem mem_insertSorted (k a : Nat) (l : List Nat) :
    a ∈ insertSorted k l ↔ a = k ∨ a ∈ l := by
  induction l with
  | nil => simp [insertSorted]
  | cons x xs ih =>
      by_cases h1 : k < x
      · simp [insertSorted, h1, List.mem_cons]
      · by_cases h2 : k = x
        · simp only [insertSorted, if_neg h1, if_pos h2, List.mem_cons]
          rw [h2]
          tauto
        · simp only [insertSorted, if_neg h1, if_neg h2, List.mem_cons, ih]
          tauto

theorem sorted_insertSorted (k : Nat) (l : List Nat)
    (h : List.Sorted (fun a b => a < b) l) :
    List.Sorted (fun a b => a < b) (insertSorted k l) := by
  induction l with
  | nil => simp [insertSorted]
  | cons x xs ih =>
      rw [List.sorted_cons] at h
      by_cases h1 : k < x
      · simp only [insertSorted, if_pos h1]
        rw [List.sorted_cons]
        refine ⟨?_, List.sorted_cons.mpr h⟩
        intro b hb
        rcases List.mem_cons.mp hb with rfl | hb
        · exact h1
        · exact h1.trans (h.1 b hb)
      · by_cases h2 : k = x
        · simp only [insertSorted, if_neg h1, if_pos h2]
          exact List.sorted_cons.mpr h
        · simp only [insertSorted, if_neg h1, if_neg h2]
          rw [List.sorted_cons]
          refine ⟨?_, ih h.2⟩
          intro b hb
          rcases (mem_insertSorted k b xs).mp hb with rfl | hb
          · omega
          · exact h.1 b hb

theorem mem_foldl_insertSorted (raw : List Nat) (acc : List Nat) (a : Nat) :
    a ∈ raw.foldl (fun acc k => insertSorted k acc) acc ↔ a ∈ acc ∨ a ∈ raw := by
  induction raw generalizing acc with
  | nil => simp
  | cons r rest ih =>
      rw [List.foldl_cons, ih, mem_insertSorted]
      simp only [List.mem_cons]
      tauto

theorem mem_buildMatches (raw : List Nat) (a : Nat) :
    a ∈ buildMatches raw ↔ a ∈ raw := by
  rw [buildMatches, mem_foldl_insertSorted]
  simp

theorem sorted_foldl_insertSorted (raw : List Nat) (acc : List Nat)
    (h : List.Sorted (fun a b => a < b) acc) :
    List.Sorted (fun a b => a < b) (raw.foldl (fun acc k => insertSorted k acc) acc) := by
  induction raw generalizing acc with
  | nil => exact h
  | cons r rest ih => exact ih _ (sorted_insertSorted r acc h)

theorem buildMatches_nodup (raw : List Nat) : (buildMatches raw).Nodup :=
  List.Pairwise.imp (fun h => Nat.ne_of_lt h)
    (sorted_foldl_insertSorted raw [] (by simp))

/-! ### Closed forms for the view-rewriting loop -/

/-- One `(old, new)` iteration's effect on one stored set. -/
def pairSwapSet (oldView newView : Nat) (s : DescriptorSetModel) : DescriptorSetModel :=
  { s with imageInfos := setImageInfosRw oldView newView s.imageInfos }

/-- The cumulative effect of the whole outer loop on one stored set. -/
def iterSwapSet (pairs : List (Nat × Nat)) (s : DescriptorSetModel) : DescriptorSetModel :=
  pairs.foldl (fun s p => pairSwapSet p.1 p.2 s) s

theorem viewsFold_map (pairs : List (Nat × Nat)) (m : List (Nat × DescriptorSetModel)) :
    (viewsFold m pairs).1 = m.map (fun kv => (kv.1, iterSwapSet pairs kv.2)) := by
  induction pairs generalizing m with
  | nil =>
      show m = m.map (fun kv => (kv.1, kv.2))
      symm
      exact map_self _ m (fun x _ => rfl)
  | cons p rest ih =>
      obtain ⟨o, n⟩ := p
      show (viewsFold (pairStep m o n).1 rest).1 = _
      rw [ih]
      show List.map _ (List.map _ m) = _
      rw [List.map_map]
      rfl

theorem iterSwapSet_imageInfos (pairs : List (Nat × Nat)) (s : DescriptorSetModel) :
    iterSwapSet pairs s =
      { s with imageInfos :=
          pairs.foldl (fun m p => setImageInfosRw p.1 p.2 m) s.imageInfos } := by
  induction pairs generalizing s with
  | nil => rfl
  | cons p rest ih =>
      show iterSwapSet rest (pairSwapSet p.1 p.2 s) = _
      rw [ih]
      rfl

theorem foldl_setImageInfosRw (pairs : List (Nat × Nat))
    (m : BindingMap VkDescriptorImageInfo) :
    pairs.foldl (fun m p => setImageInfosRw p.1 p.2 m) m =
      m.map (fun bp => (bp.1, bp.2.map (fun q => (q.1,
        pairs.foldl (fun i p => rwInfo p.1 p.2 i) q.2)))) := by
  induction pairs generalizing m with
  | nil =>
      symm
      apply map_self
      intro bp _
      have h2 : bp.2.map (fun q : Nat × VkDescriptorImageInfo =>
          (q.1, List.foldl (fun i p => rwInfo p.1 p.2 i) q.2 ([] : List (Nat × Nat)))) = bp.2 :=
        map_self _ _ (fun q _ => rfl)
      rw [h2]
  | cons p rest ih =>
      rw [List.foldl_cons, ih]
      show List.map _ (List.map _ m) = _
      rw [List.map_map]
      apply List.map_congr_left
      intro bp _
      show (bp.1, List.map _ (List.map _ bp.2)) = _
      rw [List.map_map]
      rfl

theorem foldl_rwInfo (pairs : List (Nat × Nat)) (i : VkDescriptorImageInfo) :
    pairs.foldl (fun i p => rwInfo p.1 p.2 i) i =
      { i with imageView :=
          pairs.foldl (fun v p => if v = p.1 then p.2 else v) i.imageView } := by
  induction pairs generalizing i with
  | nil => rfl
  | cons p rest ih =>
      rw [List.foldl_cons, List.foldl_cons, ih]
      by_cases h : i.imageView = p.1
      · simp [rwInfo, h]
      · simp [rwInfo, h]

theorem foldl_rwView (pairs : List (Nat × Nat)) (v : Nat)
    (hnd : (pairs.map Prod.fst).Nodup)
    (hdisj : ∀ p ∈ pairs, p.2 ∉ pairs.map Prod.fst) :
    pairs.foldl (fun v p => if v = p.1 then p.2 else v) v = swapView pairs v := by
  induction pairs generalizing v with
  | nil => simp [swapView, findVal]
  | cons p rest ih =>
      obtain ⟨o, n⟩ := p
      rw [List.map_cons, List.nodup_cons] at hnd
      have hdisj2 : ∀ q ∈ rest, q.2 ∉ rest.map Prod.fst := by
        intro q hq hmem
        exact hdisj q (List.mem_cons_of_mem _ hq)
          (by rw [List.map_cons]; exact List.mem_cons_of_mem _ hmem)
      rw [List.foldl_cons]
      by_cases hv : v = o
      · rw [if_pos hv]
        have hn : n ∉ rest.map Prod.fst := by
          intro hmem
          exact hdisj (o, n) (List.mem_cons_self _ _)
            (by rw [List.map_cons]; exact List.mem_cons_of_mem _ hmem)
        rw [ih n hnd.2 hdisj2, swapView, (findVal_eq_none_iff rest n).mpr hn,
          swapView, findVal, if_pos hv.symm]
        rfl
      · rw [if_neg hv, ih v hnd.2 hdisj2, swapView, swapView, findVal,
          if_neg (fun he => hv he.symm)]

theorem iterSwapSet_eq_swapSet (pairs : List (Nat × Nat)) (s : DescriptorSetModel)
    (hnd : (pairs.map Prod.fst).Nodup)
    (hdisj : ∀ p ∈ pairs, p.2 ∉ pairs.map Prod.fst) :
    iterSwapSet pairs s = swapSet pairs s := by
  rw [iterSwapSet_imageInfos, foldl_setImageInfosRw, swapSet]
  congr 1
  apply List.map_congr_left
  intro bp _
  congr 1
  apply List.map_congr_left
  intro q _
  rw [foldl_rwInfo, foldl_rwView pairs q.2.imageView hnd hdisj]

theorem setMatchesPair_iff (o : Nat) (s : DescriptorSetModel) :
    setMatchesPair o s = true ↔
      ∃ p ∈ s.imageInfos, ∃ q ∈ p.2, q.2.imageView = o := by
  simp [setMatchesPair, List.any_eq_true]

theorem pairSwapSet_id (o n : Nat) (s : DescriptorSetModel)
    (h : ∀ p ∈ s.imageInfos, ∀ q ∈ p.2, q.2.imageView ≠ o) :
    pairSwapSet o n s = s := by
  show { s with imageInfos := setImageInfosRw o n s.imageInfos } = s
  have himg : setImageInfosRw o n s.imageInfos = s.imageInfos := by
    apply map_self
    intro bp hbp
    have h2 : bp.2.map (fun q => (q.1, rwInfo o n q.2)) = bp.2 := by
      apply map_self
      intro q hq
      simp only [rwInfo, if_neg (h bp hbp q hq)]
    rw [h2]
  rw [himg]

theorem mem_map_value {β : Type} (m : List (Nat × β)) (f : β → β) (k : Nat) (s2 : β) :
    (k, s2) ∈ m.map (fun kv => (kv.1, f kv.2)) ↔ ∃ s, (k, s) ∈ m ∧ s2 = f s := by
  constructor
  · intro h
    rcases List.mem_map.mp h with ⟨kv, hkv, he⟩
    injection he with h1 h2
    refine ⟨kv.2, ?_, h2.symm⟩
    rw [← h1]
    exact hkv
  · rintro ⟨s, hm, rfl⟩
    exact List.mem_map.mpr ⟨(k, s), hm, rfl⟩

theorem setTouches_of_pairSwap (o n : Nat) (olds : List Nat) (s : DescriptorSetModel)
    (hn : n ∉ olds) (h : setTouches olds (pairSwapSet o n s)) :
    setTouches (o :: olds) s := by
  obtain ⟨p, hp, q, hq, hv⟩ := h
  rcases List.mem_map.mp hp with ⟨bp, hbp, hbe⟩
  rw [← hbe] at hq
  rcases List.mem_map.mp hq with ⟨q0, hq0, hqe⟩
  rw [← hqe] at hv
  by_cases hvo : q0.2.imageView = o
  · exfalso
    apply hn
    have : (rwInfo o n q0.2).imageView = n := by
      simp only [rwInfo, if_pos hvo]
    rw [this] at hv
    exact hv
  · have : (rwInfo o n q0.2).imageView = q0.2.imageView := by
      simp only [rwInfo, if_neg hvo]
    rw [this] at hv
    exact ⟨bp, hbp, q0, hq0, List.mem_cons_of_mem _ hv⟩

theorem mem_viewsFold_matches (pairs : List (Nat × Nat))
    (m : List (Nat × DescriptorSetModel))
    (hdisj : ∀ p ∈ pairs, p.2 ∉ pairs.map Prod.fst) (k : Nat) :
    k ∈ (viewsFold m pairs).2.2.2 ↔
      ∃ s, (k, s) ∈ m ∧ setTouches (pairs.map Prod.fst) s := by
  induction pairs generalizing m with
  | nil =>
      show k ∈ ([] : List Nat) ↔ _
      simp [setTouches]
  | cons p rest ih =>
      obtain ⟨o, n⟩ := p
      have hdisj2 : ∀ q ∈ rest, q.2 ∉ rest.map Prod.fst := by
        intro q hq hmem
        exact hdisj q (List.mem_cons_of_mem _ hq)
          (by rw [List.map_cons]; exact List.mem_cons_of_mem _ hmem)
      have hn : n ∉ rest.map Prod.fst := by
        intro hmem
        exact hdisj (o, n) (List.mem_cons_self _ _)
          (by rw [List.map_cons]; exact List.mem_cons_of_mem _ hmem)
      have hleft : k ∈ (pairStep m o n).2.2.2 ↔
          ∃ s, (k, s) ∈ m ∧ setMatchesPair o s = true := by
        show k ∈ (m.filter (fun kv => setMatchesPair o kv.2)).map (fun kv => kv.1) ↔ _
        constructor
        · intro h
          rcases List.mem_map.mp h with ⟨kv, hkv, he⟩
          rcases List.mem_filter.mp hkv with ⟨hm, hpred⟩
          refine ⟨kv.2, ?_, hpred⟩
          rw [← he]
          exact hm
        · rintro ⟨s, hm, hpred⟩
          exact List.mem_map.mpr ⟨(k, s), List.mem_filter.mpr ⟨hm, hpred⟩, rfl⟩
      show k ∈ (pairStep m o n).2.2.2 ++ (viewsFold (pairStep m o n).1 rest).2.2.2 ↔ _
      rw [List.mem_append, hleft, ih _ hdisj2]
      constructor
      · rintro (⟨s, hm, hpred⟩ | ⟨s2, hm2, ht2⟩)
        · obtain ⟨bp, hbp, q, hq, hv⟩ := (setMatchesPair_iff o s).mp hpred
          exact ⟨s, hm, bp, hbp, q, hq, by rw [List.map_cons, hv]; exact List.mem_cons_self _ _⟩
        · rcases (mem_map_value m (fun s => pairSwapSet o n s) k s2).mp hm2 with ⟨s, hm, rfl⟩
          obtain ht3 := setTouches_of_pairSwap o n (rest.map Prod.fst) s hn ht2
          exact ⟨s, hm, by rw [List.map_cons]; exact ht3⟩
      · rintro ⟨s, hm, ht⟩
        by_cases hex : ∃ p ∈ s.imageInfos, ∃ q ∈ p.2, q.2.imageView = o
        · exact Or.inl ⟨s, hm, (setMatchesPair_iff o s).mpr hex⟩
        · push_neg at hex
          right
          refine ⟨pairSwapSet o n s,
            (mem_map_value m (fun s => pairSwapSet o n s) k _).mpr ⟨s, hm, rfl⟩, ?_⟩
          rw [pairSwapSet_id o n s hex]
          obtain ⟨bp, hbp, q, hq, hv⟩ := ht
          rw [List.map_cons] at hv
          rcases List.mem_cons.mp hv with hvo | hvr
          · exact absurd hvo (hex bp hbp q hq)
          · exact ⟨bp, hbp, q, hq, hvr⟩

/-! ### Behaviour of the re-keying loop under fresh, collision-free new keys -/

theorem rekeyMatches_spec (ms : List Nat) (mp : List (Nat × DescriptorSetModel))
    (hnd : (mp.map Prod.fst).Nodup) (hmnd : ms.Nodup)
    (hmem : ∀ k ∈ ms, k ∈ mp.map Prod.fst)
    (hfreshA : ∀ k ∈ ms, ∀ s, findVal mp k = some s → newKeyOf s ∉ mp.map Prod.fst)
    (hfreshB : ∀ k1 ∈ ms, ∀ k2 ∈ ms, k1 ≠ k2 → ∀ s1 s2,
      findVal mp k1 = some s1 → findVal mp k2 = some s2 → newKeyOf s1 ≠ newKeyOf s2) :
    (∀ k s, (k, s) ∈ mp → k ∉ ms → (k, s) ∈ rekeyMatches mp ms) ∧
    (∀ k ∈ ms, ∀ s, findVal mp k = some s → (newKeyOf s, s) ∈ rekeyMatches mp ms) ∧
    (∀ k2 ∈ (rekeyMatches mp ms).map Prod.fst,
      (k2 ∈ mp.map Prod.fst ∧ k2 ∉ ms) ∨
      (∃ k ∈ ms, ∃ s, findVal mp k = some s ∧ k2 = newKeyOf s)) := by
  induction ms generalizing mp with
  | nil =>
      refine ⟨fun k s hm _ => hm, fun k hk => absurd hk (List.not_mem_nil k), ?_⟩
      intro k2 hk2
      exact Or.inl ⟨hk2, List.not_mem_nil k2⟩
  | cons k rest ih =>
      rw [List.nodup_cons] at hmnd
      obtain ⟨s, hfind⟩ : ∃ s, findVal mp k = some s := by
        have := (findVal_isSome_iff mp k).mpr (hmem k (List.mem_cons_self _ _))
        cases hfv : findVal mp k with
        | none => rw [hfv] at this; simp at this
        | some s => exact ⟨s, rfl⟩
      have hnk : newKeyOf s ∉ mp.map Prod.fst :=
        hfreshA k (List.mem_cons_self _ _) s hfind
      have hnkE : newKeyOf s ∉ (eraseKey mp k).map Prod.fst := by
        intro hmem2
        exact hnk ((mem_keys_eraseKey mp k (newKeyOf s) hnd).mp hmem2).1
      have hset : emplaceA (eraseKey mp k) (newKeyOf s) s =
          eraseKey mp k ++ [(newKeyOf s, s)] := emplaceA_fresh _ _ _ hnkE
      have hstep : rekeyMatches mp (k :: rest) =
          rekeyMatches (eraseKey mp k ++ [(newKeyOf s, s)]) rest := by
        simp only [rekeyMatches, hfind]
        rw [hset]
      set mp2 := eraseKey mp k ++ [(newKeyOf s, s)] with hmp2
      have hkeys2 : mp2.map Prod.fst = (eraseKey mp k).map Prod.fst ++ [newKeyOf s] := by
        rw [hmp2, List.map_append]
        rfl
      have hnd2 : (mp2.map Prod.fst).Nodup := by
        rw [hkeys2]
        rw [List.nodup_append]
        refine ⟨keys_eraseKey_nodup mp k hnd, List.nodup_singleton _, ?_⟩
        intro a ha hb
        rw [List.mem_singleton] at hb
        exact hnkE (hb ▸ ha)
      have hfv2 : ∀ k2, k2 ≠ k → ∀ s2, findVal mp k2 = some s2 →
          findVal mp2 k2 = some s2 := by
        intro k2 hne s2 hs2
        rw [hmp2, findVal_append, findVal_eraseKey_ne mp k k2 hne, hs2]
        rfl
      have hmem2 : ∀ k2 ∈ rest, k2 ∈ mp2.map Prod.fst := by
        intro k2 hk2
        have hne : k2 ≠ k := fun he => hmnd.1 (he ▸ hk2)
        rw [hkeys2]
        refine List.mem_append_left _ ?_
        exact (mem_keys_eraseKey mp k k2 hnd).mpr
          ⟨hmem k2 (List.mem_cons_of_mem _ hk2), hne⟩
      have horig : ∀ k2 ∈ rest, ∀ s2, findVal mp2 k2 = some s2 →
          findVal mp k2 = some s2 := by
        intro k2 hk2 s2 hs2
        have hne : k2 ≠ k := fun he => hmnd.1 (he ▸ hk2)
        obtain ⟨s2o, hs2o⟩ : ∃ s2o, findVal mp k2 = some s2o := by
          have := (findVal_isSome_iff mp k2).mpr (hmem k2 (List.mem_cons_of_mem _ hk2))
          cases hfv : findVal mp k2 with
          | none => rw [hfv] at this; simp at this
          | some x => exact ⟨x, rfl⟩
        have := hfv2 k2 hne s2o hs2o
        rw [this] at hs2
        cases hs2
        exact hs2o
      have hfreshA2 : ∀ k2 ∈ rest, ∀ s2, findVal mp2 k2 = some s2 →
          newKeyOf s2 ∉ mp2.map Prod.fst := by
        intro k2 hk2 s2 hs2 hmem3
        have hs2o := horig k2 hk2 s2 hs2
        have hA := hfreshA k2 (List.mem_cons_of_mem _ hk2) s2 hs2o
        have hne : k2 ≠ k := fun he => hmnd.1 (he ▸ hk2)
        rw [hkeys2, List.mem_append] at hmem3
        rcases hmem3 with hmE | hmS
        · exact hA ((mem_keys_eraseKey mp k (newKeyOf s2) hnd).mp hmE).1
        · rw [List.mem_singleton] at hmS
          exact hfreshB k (List.mem_cons_self _ _) k2 (List.mem_cons_of_mem _ hk2)
            (fun he => hne he.symm) s s2 hfind hs2o hmS.symm
      have hfreshB2 : ∀ k1 ∈ rest, ∀ k2 ∈ rest, k1 ≠ k2 → ∀ s1 s2,
          findVal mp2 k1 = some s1 → findVal mp2 k2 = some s2 →
          newKeyOf s1 ≠ newKeyOf s2 := by
        intro k1 hk1 k2 hk2 hne s1 s2 hs1 hs2
        exact hfreshB k1 (List.mem_cons_of_mem _ hk1) k2 (List.mem_cons_of_mem _ hk2)
          hne s1 s2 (horig k1 hk1 s1 hs1) (horig k2 hk2 s2 hs2)
      obtain ⟨IH1, IH2, IH3⟩ := ih mp2 hnd2 hmnd.2 hmem2 hfreshA2 hfreshB2
      have hnkrest : newKeyOf s ∉ rest := by
        intro hmem3
        exact hnk (hmem (newKeyOf s) (List.mem_cons_of_mem _ hmem3))
      refine ⟨?_, ?_, ?_⟩
      · intro k0 s0 hm0 hnm0
        have hne : k0 ≠ k := fun he => hnm0 (he ▸ List.mem_cons_self _ _)
        have hin2 : (k0, s0) ∈ mp2 := by
          rw [hmp2]
          exact List.mem_append_left _ (mem_eraseKey_of_ne mp k k0 s0 hne hm0)
        rw [hstep]
        exact IH1 k0 s0 hin2 (fun hr => hnm0 (List.mem_cons_of_mem _ hr))
      · intro k0 hk0 s0 hfind0
        rcases List.mem_cons.mp hk0 with rfl | hk0r
        · have hse : s0 = s := by
            rw [hfind0] at hfind
            exact Option.some.inj hfind
          rw [hse]
          have hin2 : (newKeyOf s, s) ∈ mp2 := by
            rw [hmp2]
            exact List.mem_append_right _ (List.mem_singleton.mpr rfl)
          rw [hstep]
          exact IH1 (newKeyOf s) s hin2 hnkrest
        · have hne : k0 ≠ k := fun he => hmnd.1 (he ▸ hk0r)
          rw [hstep]
          exact IH2 k0 hk0r s0 (hfv2 k0 hne s0 hfind0)
      · intro k2 hk2
        rw [hstep] at hk2
        rcases IH3 k2 hk2 with ⟨hin2, hnR⟩ | ⟨k0, hk0, s0, hfind0, he0⟩
        · rw [hkeys2, List.mem_append] at hin2
          rcases hin2 with hmE | hmS
          · obtain ⟨hmm, hne⟩ := (mem_keys_eraseKey mp k k2 hnd).mp hmE
            refine Or.inl ⟨hmm, ?_⟩
            intro hc
            rcases List.mem_cons.mp hc with rfl | hcr
            · exact hne rfl
            · exact hnR hcr
          · rw [List.mem_singleton] at hmS
            exact Or.inr ⟨k, List.mem_cons_self _ _, s, hfind, hmS⟩
        · exact Or.inr ⟨k0, List.mem_cons_of_mem _ hk0, s0,
            horig k0 hk0 s0 hfind0, he0⟩

theorem mem_setWritesPair (o n : Nat) (s : DescriptorSetModel) (b elem : Nat)
    (arr : List (Nat × VkDescriptorImageInfo)) (e : VkDescriptorImageInfo)
    (bi : VkDescriptorSetLayoutBinding)
    (hb : (b, arr) ∈ s.imageInfos) (he : (elem, e) ∈ arr) (hv : e.imageView = o)
    (hbi : GetLayoutBinding s.descriptorSetLayout b = some bi) :
    ({ dstBinding := b, descriptorType := bi.descriptorType, dstSet := s.handle,
       dstArrayElement := elem, descriptorCount := 1,
       info := WriteInfo.image { e with imageView := n } } : VkWriteDescriptorSet)
      ∈ setWritesPair o n s := by
  unfold setWritesPair
  apply List.mem_flatMap.mpr
  refine ⟨(b, arr), hb, ?_⟩
  apply List.mem_flatMap.mpr
  refine ⟨(elem, e), he, ?_⟩
  have hrw : rwInfo o n e = { e with imageView := n } := by
    unfold rwInfo
    rw [if_pos hv]
  simp only [hv, if_true, hbi, hrw, List.mem_singleton]

theorem viewsFold_writes_cover (k b elem vOld vNew : Nat)
    (bi : VkDescriptorSetLayoutBinding) :
    ∀ (pairs : List (Nat × Nat)) (m : List (Nat × DescriptorSetModel))
      (s : DescriptorSetModel) (arr : List (Nat × VkDescriptorImageInfo))
      (e : VkDescriptorImageInfo),
      (pairs.map Prod.fst).Nodup → (vOld, vNew) ∈ pairs →
      (k, s) ∈ m → (b, arr) ∈ s.imageInfos → (elem, e) ∈ arr →
      e.imageView = vOld →
      GetLayoutBinding s.descriptorSetLayout b = some bi →
      ({ dstBinding := b, descriptorType := bi.descriptorType, dstSet := s.handle,
         dstArrayElement := elem, descriptorCount := 1,
         info := WriteInfo.image { e with imageView := vNew } } : VkWriteDescriptorSet)
        ∈ (viewsFold m pairs).2.1 := by
  intro pairs
  induction pairs with
  | nil =>
      intro m s arr e _ hpair
      simp at hpair
  | cons p rest ih =>
      intro m s arr e hnd hpair hm hb he hv hbi
      obtain ⟨o, n⟩ := p
      rw [List.map_cons, List.nodup_cons] at hnd
      show _ ∈ (pairStep m o n).2.1 ++ (viewsFold (pairStep m o n).1 rest).2.1
      rcases List.mem_cons.mp hpair with heq | hrest
      · injection heq with ho hn2
        subst ho
        subst hn2
        apply List.mem_append_left
        exact List.mem_flatMap.mpr
          ⟨(k, s), hm, mem_setWritesPair vOld vNew s b elem arr e bi hb he hv hbi⟩
      · have hvo_ne : vOld ≠ o := by
          intro he2
          apply hnd.1
          rw [← he2]
          exact List.mem_map.mpr ⟨(vOld, vNew), hrest, rfl⟩
        apply List.mem_append_right
        have hm2 : (k, pairSwapSet o n s) ∈ (pairStep m o n).1 :=
          List.mem_map.mpr ⟨(k, s), hm, rfl⟩
        have hb2 : (b, arr.map (fun q => (q.1, rwInfo o n q.2)))
            ∈ (pairSwapSet o n s).imageInfos :=
          List.mem_map.mpr ⟨(b, arr), hb, rfl⟩
        have hrwid : rwInfo o n e = e := by
          unfold rwInfo
          rw [if_neg (by rw [hv]; exact hvo_ne)]
        have he2 : (elem, e) ∈ arr.map (fun q => (q.1, rwInfo o n q.2)) := by
          refine List.mem_map.mpr ⟨(elem, e), he, ?_⟩
          show (elem, rwInfo o n e) = (elem, e)
          rw [hrwid]
        exact ih (pairStep m o n).1 (pairSwapSet o n s) _ e hnd.2 hrest hm2 hb2 he2 hv hbi

theorem keys_map_value {β : Type} (m : List (Nat × β)) (f : β → β) :
    (m.map (fun kv => (kv.1, f kv.2))).map Prod.fst = m.map Prod.fst := by
  rw [List.map_map]
  rfl

theorem value_eq_of_mem_nodup {κ α : Type} [DecidableEq κ] (l : List (κ × α))
    (k : κ) (s1 s2 : α) (h1 : (k, s1) ∈ l) (h2 : (k, s2) ∈ l)
    (hnd : (l.map Prod.fst).Nodup) : s1 = s2 := by
  have e1 := findVal_of_mem_nodup l k s1 h1 hnd
  have e2 := findVal_of_mem_nodup l k s2 h2 hnd
  rw [e1] at e2
  exact Option.some.inj e2

theorem swapSet_id (pairs : List (Nat × Nat)) (olds : List Nat)
    (s : DescriptorSetModel) (hfst : pairs.map Prod.fst = olds)
    (h : ¬ setTouches olds s) : swapSet pairs s = s := by
  unfold setTouches at h
  push_neg at h
  show { s with imageInfos := _ } = s
  have himg : s.imageInfos.map (fun p => (p.1,
      p.2.map (fun q => (q.1,
        { q.2 with imageView := swapView pairs q.2.imageView })))) = s.imageInfos := by
    apply map_self
    intro bp hbp
    have h2 : bp.2.map (fun q => (q.1,
        { q.2 with imageView := swapView pairs q.2.imageView })) = bp.2 := by
      apply map_self
      intro q hq
      have hnone : findVal pairs q.2.imageView = none := by
        rw [findVal_eq_none_iff, hfst]
        exact h bp hbp q hq
      show (q.1, { q.2 with imageView := swapView pairs q.2.imageView }) = q
      rw [swapView, hnone]
      rfl
    rw [h2]
  rw [himg]

/-- Claim C2 (amended): for `UpdateDescriptorSets(oldViews, newViews)` with
equal-length view lists, distinct old views, new views disjoint from old
views, unique cache keys, and recomputed content hashes that are fresh and
collision-free, (1) every cached descriptor set referencing none of the old
views keeps its key and bindings unchanged; (2) every set referencing some
old view ends up with each matching image binding rewritten to the paired new
view, is no longer present under its old key, and is re-inserted under the
content hash of its layout, buffer infos and rewritten image infos; (3) the
batched device update call is issued exactly once if at least one write entry
was collected and zero times otherwise (not unconditionally once per call
with a rewritten binding: bindings absent from the set's layout are rewritten
and re-keyed without any write entry, see the counterexample); (4) every
rewritten element whose binding exists in the set's layout is covered by a
write entry of the batched update. -/
theorem claim_C2_view_swap_rekeying
    (m : List (Nat × DescriptorSetModel)) (oldViews newViews : List Nat)
    (hlen : oldViews.length = newViews.length)
    (hndOld : oldViews.Nodup)
    (hdisjON : ∀ v ∈ newViews, v ∉ oldViews)
    (hkeys : (m.map Prod.fst).Nodup)
    (hfresh1 : ∀ k s, (k, s) ∈ m → setTouches oldViews s →
      newKeyOf (swapSet (oldViews.zip newViews) s) ∉ m.map Prod.fst)
    (hfresh2 : ∀ k1 s1 k2 s2, (k1, s1) ∈ m → (k2, s2) ∈ m →
      setTouches oldViews s1 → setTouches oldViews s2 → k1 ≠ k2 →
      newKeyOf (swapSet (oldViews.zip newViews) s1) ≠
        newKeyOf (swapSet (oldViews.zip newViews) s2)) :
    (∀ k s, (k, s) ∈ m → ¬ setTouches oldViews s →
      (k, s) ∈ (UpdateDescriptorSets m oldViews newViews).descriptor_sets) ∧
    (∀ k s, (k, s) ∈ m → setTouches oldViews s →
      (newKeyOf (swapSet (oldViews.zip newViews) s), swapSet (oldViews.zip newViews) s)
          ∈ (UpdateDescriptorSets m oldViews newViews).descriptor_sets ∧
        k ∉ (UpdateDescriptorSets m oldViews newViews).descriptor_sets.map Prod.fst) ∧
    ((UpdateDescriptorSets m oldViews newViews).deviceUpdateCalls =
      if (UpdateDescriptorSets m oldViews newViews).setUpdates.isEmpty then 0 else 1) ∧
    (∀ vOld vNew, (vOld, vNew) ∈ oldViews.zip newViews →
      ∀ k s b arr elem e bi, (k, s) ∈ m → (b, arr) ∈ s.imageInfos →
        (elem, e) ∈ arr → e.imageView = vOld →
        GetLayoutBinding s.descriptorSetLayout b = some bi →
        ({ dstBinding := b, descriptorType := bi.descriptorType, dstSet := s.handle,
           dstArrayElement := elem, descriptorCount := 1,
           info := WriteInfo.image { e with imageView := vNew } } : VkWriteDescriptorSet)
          ∈ (UpdateDescriptorSets m oldViews newViews).setUpdates) := by
  set pairs := oldViews.zip newViews with hpairs
  have hfst : pairs.map Prod.fst = oldViews := by
    rw [hpairs]
    exact List.map_fst_zip oldViews newViews (le_of_eq hlen)
  have hndP : (pairs.map Prod.fst).Nodup := by
    rw [hfst]
    exact hndOld
  have hdisjP : ∀ p ∈ pairs, p.2 ∉ pairs.map Prod.fst := by
    intro p hp hmem
    have hsnd : p.2 ∈ newViews := (List.of_mem_zip hp).2
    rw [hfst] at hmem
    exact hdisjON p.2 hsnd hmem
  have hmp : (viewsFold m pairs).1 = m.map (fun kv => (kv.1, swapSet pairs kv.2)) := by
    rw [viewsFold_map]
    apply List.map_congr_left
    intro kv _
    rw [iterSwapSet_eq_swapSet pairs kv.2 hndP hdisjP]
  have hkeysmp : ((viewsFold m pairs).1.map Prod.fst).Nodup := by
    rw [hmp, keys_map_value]
    exact hkeys
  have hkeyseq : (viewsFold m pairs).1.map Prod.fst = m.map Prod.fst := by
    rw [hmp, keys_map_value]
  have hmatch_iff : ∀ k0, k0 ∈ buildMatches (viewsFold m pairs).2.2.2 ↔
      ∃ s, (k0, s) ∈ m ∧ setTouches oldViews s := by
    intro k0
    rw [mem_buildMatches, mem_viewsFold_matches pairs m hdisjP, hfst]
  have hfvmp : ∀ k0 s0, (k0, s0) ∈ m →
      findVal (viewsFold m pairs).1 k0 = some (swapSet pairs s0) := by
    intro k0 s0 hm0
    apply findVal_of_mem_nodup _ _ _ _ hkeysmp
    rw [hmp]
    exact List.mem_map.mpr ⟨(k0, s0), hm0, rfl⟩
  obtain ⟨RK1, RK2, RK3⟩ := rekeyMatches_spec (buildMatches (viewsFold m pairs).2.2.2)
    (viewsFold m pairs).1 hkeysmp (buildMatches_nodup _)
    (by
      intro k0 hk0
      obtain ⟨s0, hm0, _⟩ := (hmatch_iff k0).mp hk0
      rw [hkeyseq]
      exact List.mem_map.mpr ⟨(k0, s0), hm0, rfl⟩)
    (by
      intro k0 hk0 s2 hfind2
      obtain ⟨s0, hm0, ht0⟩ := (hmatch_iff k0).mp hk0
      have := hfvmp k0 s0 hm0
      rw [this] at hfind2
      cases hfind2
      rw [hkeyseq]
      exact hfresh1 k0 s0 hm0 ht0)
    (by
      intro k1 hk1 k2 hk2 hne s1 s2 hfind1 hfind2
      obtain ⟨s1o, hm1, ht1⟩ := (hmatch_iff k1).mp hk1
      obtain ⟨s2o, hm2, ht2⟩ := (hmatch_iff k2).mp hk2
      have e1 := hfvmp k1 s1o hm1
      have e2 := hfvmp k2 s2o hm2
      rw [e1] at hfind1
      rw [e2] at hfind2
      cases hfind1
      cases hfind2
      exact hfresh2 k1 s1o k2 s2o hm1 hm2 ht1 ht2 hne)
  have hRd : (UpdateDescriptorSets m oldViews newViews).descriptor_sets =
      rekeyMatches (viewsFold m pairs).1 (buildMatches (viewsFold m pairs).2.2.2) := rfl
  refine ⟨?_, ?_, rfl, ?_⟩
  · intro k s hm0 hnt
    have hswapid : swapSet pairs s = s := swapSet_id pairs oldViews s hfst hnt
    have hin : (k, s) ∈ (viewsFold m pairs).1 := by
      rw [hmp]
      refine List.mem_map.mpr ⟨(k, s), hm0, ?_⟩
      rw [hswapid]
    have hnotm : k ∉ buildMatches (viewsFold m pairs).2.2.2 := by
      intro hk
      obtain ⟨s0, hm1, ht0⟩ := (hmatch_iff k).mp hk
      have : s0 = s := value_eq_of_mem_nodup m k s0 s hm1 hm0 hkeys
      rw [this] at ht0
      exact hnt ht0
    rw [hRd]
    exact RK1 k s hin hnotm
  · intro k s hm0 ht
    have hkm : k ∈ buildMatches (viewsFold m pairs).2.2.2 :=
      (hmatch_iff k).mpr ⟨s, hm0, ht⟩
    constructor
    · rw [hRd]
      exact RK2 k hkm (swapSet pairs s) (hfvmp k s hm0)
    · intro hkfin
      rw [hRd] at hkfin
      rcases RK3 k hkfin with ⟨_, hnm⟩ | ⟨k0, hk0, s0, hfind0, he0⟩
      · exact hnm hkm
      · obtain ⟨s0o, hm1, ht1⟩ := (hmatch_iff k0).mp hk0
        have := hfvmp k0 s0o hm1
        rw [this] at hfind0
        cases hfind0
        apply hfresh1 k0 s0o hm1 ht1
        rw [← he0]
        exact List.mem_map.mpr ⟨(k, s), hm0, rfl⟩
  · intro vOld vNew hpair k s b arr elem e bi hm0 hb he hv hbi
    exact viewsFold_writes_cover k b elem vOld vNew bi pairs m s arr e
      hndP hpair hm0 hb he hv hbi

/-- A layout declaring binding 0 as a combined image sampler. -/
def wC2Bind : VkDescriptorSetLayoutBinding :=
  { binding := 0, descriptorCount := 1,
    descriptorType := VkDescriptorType.COMBINED_IMAGE_SAMPLER, stageFlags := 16 }

def wC2Layout : DescriptorSetLayoutModel :=
  { setIndex := 0, bindings := [wC2Bind], bindingFlags := [],
    bindingsLookup := [(0, wC2Bind)], bindingFlagsLookup := [], resourcesLookup := [] }

/-- A cached descriptor set bound to image view 7 at binding 0. -/
def wC2Set : DescriptorSetModel :=
  { descriptorSetLayout := wC2Layout, bufferInfos := [],
    imageInfos := [(0, [(0, { sampler := 3, imageView := 7, imageLayout := 1 })])],
    handle := 5, writeDescriptorSets := [], updatedBindings := [] }

/-- Witness for C2: a one-set cache with view 7 swapped to 9 — the set is
re-keyed under the recomputed content hash, removed from its old key, and the
rewritten binding is covered by a write entry of the batched update. -/
theorem claim_C2_witness :
    (newKeyOf (swapSet ([7].zip [9]) wC2Set), swapSet ([7].zip [9]) wC2Set)
        ∈ (UpdateDescriptorSets [(100, wC2Set)] [7] [9]).descriptor_sets ∧
    100 ∉ (UpdateDescriptorSets [(100, wC2Set)] [7] [9]).descriptor_sets.map Prod.fst ∧
    ({ dstBinding := 0, descriptorType := VkDescriptorType.COMBINED_IMAGE_SAMPLER,
       dstSet := 5, dstArrayElement := 0, descriptorCount := 1,
       info := WriteInfo.image { sampler := 3, imageView := 9, imageLayout := 1 } }
        : VkWriteDescriptorSet)
      ∈ (UpdateDescriptorSets [(100, wC2Set)] [7] [9]).setUpdates := by
  have htouch : setTouches [7] wC2Set :=
    ⟨(0, [(0, { sampler := 3, imageView := 7, imageLayout := 1 })]),
      List.mem_singleton.mpr rfl,
      (0, { sampler := 3, imageView := 7, imageLayout := 1 }),
      List.mem_singleton.mpr rfl, List.mem_singleton.mpr rfl⟩
  obtain ⟨h1, h2, h3, h4⟩ := claim_C2_view_swap_rekeying [(100, wC2Set)] [7] [9]
    rfl (by decide) (by decide) (by decide)
    (by
      intro k s hm ht
      rw [List.mem_singleton] at hm
      injection hm with hk hs
      subst hk
      subst hs
      decide)
    (by
      intro k1 s1 k2 s2 hm1 hm2 ht1 ht2 hne
      rw [List.mem_singleton] at hm1 hm2
      injection hm1 with hk1 hs1
      injection hm2 with hk2 hs2
      exact absurd (hk1.trans hk2.symm) hne)
  refine ⟨(h2 100 wC2Set (List.mem_singleton.mpr rfl) htouch).1,
          (h2 100 wC2Set (List.mem_singleton.mpr rfl) htouch).2, ?_⟩
  exact h4 7 9 (List.mem_singleton.mpr rfl) 100 wC2Set 0
    [(0, { sampler := 3, imageView := 7, imageLayout := 1 })] 0
    { sampler := 3, imageView := 7, imageLayout := 1 } wC2Bind
    (List.mem_singleton.mpr rfl) (List.mem_singleton.mpr rfl)
    (List.mem_singleton.mpr rfl) rfl rfl

end VkSamples
